import Mathlib

/-!
Shallow embedding of the file-discovery, date-parsing, concatenation and
citation components of the ESMValCore repository (files
`esmvalcore/_data_finder.py`, `esmvalcore/preprocessor/_io.py`,
`esmvalcore/_citation.py`).

Python strings are modelled as `String` / `List Char`, Python ints as `Int`
(or `Nat` where the source can only produce non-negative values), Python
dicts as association lists, raised exceptions as `Except`, and the
filesystem / external iris library as explicit oracle records passed to the
functions that consult them, following the narrow-interface design the
repository documents (list-directory, path-exists, glob-match).
-/

/-! ## Basic string helpers (Python `str` operations used by the source) -/

/-- The chars of Python `s.split(sep)` for a one-char separator: splits on
every occurrence, keeping empty parts (`"".split(sep) == ['']`). -/

def splitOnChar (sep : Char) : List Char → List (List Char)
  | [] => [[]]
  | c :: rest =>
    if c = sep then [] :: splitOnChar sep rest
    else
      match splitOnChar sep rest with
      | [] => [[c]]
      | h :: t => (c :: h) :: t

/-- Python `str.join` over a separator string. -/

def joinSep (sep : List Char) : List (List Char) → List Char
  | [] => []
  | [x] => x
  | x :: y :: rest => x ++ sep ++ joinSep sep (y :: rest)

/-- Whether `pat` occurs as a contiguous substring (Python `pat in s`). -/

def containsSub (s pat : List Char) : Bool :=
  decide (pat <:+: s)

/-- Fuel-driven worker for `replaceSub` (structural recursion on the fuel
so that the kernel can evaluate it; the fuel is initialized to the string
length, which each step strictly consumes). -/

def replaceSubAux (fuel : Nat) (s pat rep : List Char) : List Char :=
  match fuel, s with
  | 0, s => s
  | _ + 1, [] => []
  | fuel + 1, c :: rest =>
    if pat ≠ [] ∧ pat <+: (c :: rest) then
      rep ++ replaceSubAux fuel ((c :: rest).drop pat.length) pat rep
    else
      c :: replaceSubAux fuel rest pat rep

/-- Python `s.replace(pat, rep)`: replace all non-overlapping occurrences,
scanning left to right.  (All call sites pass a non-empty `pat`.) -/

def replaceSub (s pat rep : List Char) : List Char :=
  replaceSubAux s.length s pat rep

/-- Python `s.strip('/')`: remove leading and trailing `'/'` characters. -/

def stripSlashes (s : List Char) : List Char :=
  ((s.dropWhile (· = '/')).reverse.dropWhile (· = '/')).reverse

/-- Python `s.lower()` (ASCII letters; path tags in this code are ASCII). -/

def pyLower (s : List Char) : List Char := s.map Char.toLower

/-- Python `s.upper()` (ASCII letters). -/

def pyUpper (s : List Char) : List Char := s.map Char.toUpper

/-- Numeric value of a digit string (Python `int` on an all-digit string). -/

def digitsToNat (s : List Char) : Nat :=
  s.foldl (fun a c => 10 * a + (c.toNat - 48)) 0

/-- Python `os.path.join(a, b)` for two parts, with `'/'` as separator:
an absolute second part discards the first. -/

def pyJoin (a b : List Char) : List Char :=
  match b with
  | [] => if a = [] then [] else if a.getLast? = some '/' then a else a ++ ['/']
  | c :: _ =>
    if c = '/' then b
    else if a = [] then b
    else if a.getLast? = some '/' then a ++ b
    else a ++ '/' :: b

/-! ## Filename date-range parser (`_data_finder.get_start_end_year`) -/

/-- Index of the first element satisfying `p`, counting from `start`. -/

def findIdxFrom (p : Char → Bool) : List Char → Nat → Option Nat
  | [], _ => none
  | c :: r, i => if p c then some i else findIdxFrom p r (i + 1)

/-- Strip the extension from one path component, following
`os.path.splitext`: drop from the last `'.'` on, provided some earlier
character of the component is not a `'.'` (leading dots never start an
extension). -/

def stripExtBase (comp : List Char) : List Char :=
  match findIdxFrom (· = '.') comp.reverse 0 with
  | none => comp
  | some rIdx =>
    let dotIdx := comp.length - 1 - rIdx
    if (comp.take dotIdx).any (· ≠ '.') then comp.take dotIdx else comp

/-- One token qualifies as date-like: all digits and at least 4 characters
(`elem.isdigit() and len(elem) >= 4`). -/

def isYdate (t : List Char) : Bool :=
  (t.all Char.isDigit) && decide (t.length ≥ 4)

/-- Left-propagating conjunction scan: entry `i` of the result is the
conjunction of entries `0..i` of the input (with `acc` as the seed). -/

def andScanL (acc : Bool) : List Bool → List Bool
  | [] => []
  | b :: r => (acc && b) :: andScanL (acc && b) r

/-- The token list of a filename: extension-stripped base name, split on
`'_'` and then on `'-'` (lines 49-53 of `_data_finder.py`). -/

def filenameTokens (filename : String) : List (List Char) :=
  let comp := (splitOnChar '/' filename.data).getLastD []
  let name := stripExtBase comp
  (splitOnChar '_' name).flatMap (splitOnChar '-')

/-- The retained date-like tokens of a filename: tokens kept by either the
left-propagating or the right-propagating contiguity mask (lines 55-71 of
`_data_finder.py`). -/

def retainedTokens (filename : String) : List (List Char) :=
  let toks := filenameTokens filename
  let pos := toks.map isYdate
  let left := andScanL true pos
  let right := (andScanL true pos.reverse).reverse
  ((toks.zip (left.zip right)).filter (fun x => x.2.1 || x.2.2)).map (·.1)

/-- First four characters of a token, as an integer (`int(dates[i][:4])`;
retained tokens are all-digit of length at least 4). -/

def first4Int (t : List Char) : Int :=
  Int.ofNat (digitsToNat (t.take 4))

/-- Errors raised by the data-finder functions.  The source raises
`ValueError` with two distinct messages ("can not be read" — the
spec's `UnreadableFileError` — and "dates do not match a recognized
pattern..." — the spec's `DateNotFoundError`) and `KeyError` for a
missing template tag. -/

inductive DFErr where
  | unreadableFile (filename : String)
  | dateNotFound (filename : String)
  | keyError (tag : String)
  | configError (msg : String)
  | unpackError (msg : String)
  | typeError (msg : String)

deriving DecidableEq, Repr

/-- External iris cube as seen by `get_start_end_year`'s content fallback:
either it has no 'time' coordinate, or the first and last cells of its
time coordinate have these calendar years (a present time coordinate has
at least one cell). -/

structure ContentCube where
  timeYears : Option (Int × Int)

deriving DecidableEq, Repr

/-- Read-only content filesystem oracle: `iris.load` either fails
(`none`, an `OSError`) or yields the file's cube list. -/

def ContentFs := String → Option (List ContentCube)

deriving instance DecidableEq for Except

/-- `_data_finder.get_start_end_year` (lines 34-101): parse start/end year
from the filename tokens; with zero or more than two retained tokens fall
back to reading the time coordinate from the file's content.  The final
`if not start_year or not end_year` check of the source is Python
truthiness: it fires both when a year was never set and when it is 0. -/

def get_start_end_year (filename : String) (fs : ContentFs) :
    Except DFErr (Int × Int) :=
  let dates := retainedTokens filename
  let se : Option (Int × Int) :=
    match dates with
    | [d] => some (first4Int d, first4Int d)
    | [d1, d2] => some (first4Int d1, first4Int d2)
    | _ => none
  match se with
  | some (s, e) =>
    if s ≠ 0 ∧ e ≠ 0 then .ok (s, e) else .error (.dateNotFound filename)
  | none =>
    match fs filename with
    | none => .error (.unreadableFile filename)
    | some cubes =>
      match cubes.findSome? (·.timeYears) with
      | some (s, e) =>
        if s ≠ 0 ∧ e ≠ 0 then .ok (s, e)
        else .error (.dateNotFound filename)
      | none => .error (.dateNotFound filename)

/-- `_data_finder.select_files` (lines 104-114): keep the files whose
parsed year range overlaps the inclusive request window, in input order;
a parse failure propagates. -/

def select_files (filenames : List String) (start_year end_year : Int)
    (fs : ContentFs) : Except DFErr (List String) :=
  match filenames with
  | [] => .ok []
  | f :: rest => do
    let (s, e) ← get_start_end_year f fs
    let sel ← select_files rest start_year end_year fs
    pure (if s ≤ end_year ∧ e ≥ start_year then f :: sel else sel)

/-- Content filesystem on which every file is unreadable. -/

def noFs : ContentFs := fun _ => none

/-- The retention decision of `select_files` for one file: parsed range
overlaps the inclusive request window. -/

def selectKeep (start_year end_year : Int) (fs : ContentFs) (f : String) :
    Bool :=
  match get_start_end_year f fs with
  | .ok (s, e) => decide (s ≤ end_year ∧ e ≥ start_year)
  | .error _ => false

/-! ## Tag substitution engine (`_data_finder._replace_tags`) and
version resolver (`_data_finder._resolve_latestversion`) -/

/-- Fuel-driven worker for `splitOnSub` (structural recursion on the
fuel, initialized to the string length). -/

def splitOnSubAux (fuel : Nat) (s pat : List Char) : List (List Char) :=
  match fuel, s with
  | 0, s => [s]
  | _ + 1, [] => [[]]
  | fuel + 1, c :: rest =>
    if pat ≠ [] ∧ pat <+: (c :: rest) then
      [] :: splitOnSubAux fuel ((c :: rest).drop pat.length) pat
    else
      match splitOnSubAux fuel rest pat with
      | [] => [[c]]
      | h :: t => (c :: h) :: t

/-- Python `s.split(pat)` on a non-empty substring separator: split on
every non-overlapping occurrence, scanning left to right. -/

def splitOnSub (s pat : List Char) : List (List Char) :=
  splitOnSubAux s.length s pat

/-- The reserved version placeholder `{latestversion}`. -/

def latestversionTag : List Char := "\x7blatestversion\x7d".data

/-- Directory filesystem oracle used by the locator and the version
resolver, the narrow interface (path-exists, list-directory,
is-directory, glob, walk, filename-match) behind which the source's
`os` / `glob` / `fnmatch` calls sit. -/

structure DirFs where
  pathExists : String → Bool
  listdir : String → List String
  isdir : String → Bool
  glob : String → List String
  walk : String → List (String × List String)
  fnmatch : String → String → Bool

/-- `_data_finder._resolve_latestversion` (lines 171-187): resolve the
`{latestversion}` placeholder against the filesystem.  The source's
two-way unpack `part1, part2 = dirname_template.split(...)` raises
`ValueError` when the placeholder occurs more than once; that is the
`unpackError` case. -/

def _resolve_latestversion (tmpl : String) (fs : DirFs) :
    Except DFErr String :=
  if ¬ containsSub tmpl.data latestversionTag then .ok tmpl
  else
    match splitOnSub tmpl.data latestversionTag with
    | [p1, p2] =>
      let part2 := p2.dropWhile (· = '/')
      if fs.pathExists (String.mk p1) then
        let versions :=
          List.insertionSort (fun a b : String => b ≤ a)
            (fs.listdir (String.mk p1))
        match ("latest" :: versions).find?
            (fun v => fs.isdir (String.mk
              (pyJoin (pyJoin p1 v.data) part2))) with
        | some v => .ok (String.mk (pyJoin (pyJoin p1 v.data) part2))
        | none => .ok tmpl
      else .ok tmpl
    | _ => .error (.unpackError "latestversion occurs more than once")

/-- Scanner state for the tag finder: scan `re.findall` of the pattern
matching a brace-opened run of non-close-brace characters up to the next
closing brace; `some acc` holds the (reversed) capture in progress. -/

def findTagsAux : Option (List Char) → List Char → List String
  | _, [] => []
  | none, c :: r =>
    if c = '\x7b' then findTagsAux (some []) r else findTagsAux none r
  | some acc, c :: r =>
    if c = '\x7d' then String.mk acc.reverse :: findTagsAux none r
    else findTagsAux (some (c :: acc)) r

/-- The tag names occurring in a template, in scanning order (the
source's `re.findall` of the brace pattern). -/

def findTags (s : List Char) : List String := findTagsAux none s

/-- A descriptor value: a scalar string, a scalar integer, or a list of
strings to fan out over. -/

inductive Value where
  | str (s : String)
  | int (n : Int)
  | list (l : List String)

deriving DecidableEq, Repr

/-- Dataset descriptor: mapping from tag name to value, as an association
list with Python-dict update semantics. -/

def Variable := List (String × Value)

/-- Key lookup in a descriptor. -/

def lookupVar (v : Variable) (k : String) : Option Value :=
  match v with
  | [] => none
  | (k', x) :: rest => if k' = k then some x else lookupVar rest k

/-- Python dict assignment: replace in place if the key is present,
append otherwise. -/

def setVar (v : Variable) (k : String) (x : Value) : Variable :=
  match v with
  | [] => [(k, x)]
  | (k', y) :: rest =>
    if k' = k then (k, x) :: rest else (k', y) :: setVar rest k x

/-- `_data_finder._get_caps_options` (lines 151-160): strip a trailing
`.lower` / `.upper` modifier and report which one was present. -/

def _get_caps_options (tag : String) : String × Bool × Bool :=
  if ".lower".data <:+ tag.data then
    (String.mk (tag.data.take (tag.data.length - 6)), true, false)
  else if ".upper".data <:+ tag.data then
    (String.mk (tag.data.take (tag.data.length - 6)), false, true)
  else (tag, false, false)

/-- `_data_finder._apply_caps` (lines 163-168). -/

def _apply_caps (s : List Char) (lower upper : Bool) : List Char :=
  if lower then pyLower s else if upper then pyUpper s else s

/-- The literal placeholder text for a tag: `'{' + tag + '}'`. -/

def bracedTag (tag : String) : List Char :=
  '\x7b' :: tag.data ++ ['\x7d']

/-- Substitute one tag by a scalar text in one path, applying the tag's
case modifier (the scalar branch of `_replace_tag`). -/

def replaceTagIn (tag : String) (text : String) (p : String) : String :=
  let co := _get_caps_options tag
  String.mk (replaceSub p.data (bracedTag tag)
    (_apply_caps text.data co.2.1 co.2.2))

/-- `_data_finder._replace_tag` (lines 138-148): a list value fans out
item by item, each item substituted into the full current path list; a
scalar value is substituted into every path (descriptor lists hold
scalar strings, so the source's recursion bottoms out after one step). -/

def _replace_tag (paths : List String) (tag : String) (rep : Value) :
    List String :=
  match rep with
  | .list items => items.flatMap (fun item =>
      paths.map (replaceTagIn tag item))
  | .str s => paths.map (replaceTagIn tag s)
  | .int n => paths.map (replaceTagIn tag (toString n))

/-- The loop of `_data_finder._replace_tags` (lines 122-134) over the
found tags: skip the reserved version tag, fail on a tag missing from
the descriptor, otherwise expand with `_replace_tag`. -/

def _replace_tags_go (tlist : List String) (var : Variable)
    (paths : List String) : Except DFErr (List String) :=
  match tlist with
  | [] => .ok paths
  | tag :: rest =>
    let base := (_get_caps_options tag).1
    if base = "latestversion" then _replace_tags_go rest var paths
    else
      match lookupVar var base with
      | some v => _replace_tags_go rest var (_replace_tag paths tag v)
      | none => .error (.keyError base)

/-- `_data_finder._replace_tags` (lines 117-135): strip the template's
leading/trailing path separators, find its tags and expand them in
order. -/

def _replace_tags (path : String) (var : Variable) :
    Except DFErr (List String) :=
  let stripped := stripSlashes path.data
  _replace_tags_go (findTags stripped) var [String.mk stripped]

/-- The single-path substitution a descriptor with only scalar values
performs: process tags in order, each replacing its placeholder in the
one current path (skipping the reserved tag and tags without a scalar
value). -/

def scalarSubst (tlist : List String) (var : Variable) (p : String) :
    String :=
  match tlist with
  | [] => p
  | tag :: rest =>
    let base := (_get_caps_options tag).1
    if base = "latestversion" then scalarSubst rest var p
    else
      match lookupVar var base with
      | some (.str s) => scalarSubst rest var (replaceTagIn tag s p)
      | some (.int n) =>
        scalarSubst rest var (replaceTagIn tag (toString n) p)
      | _ => scalarSubst rest var p

/-- Number of paths one tag contributes per current path: list values
fan out by their length, everything else (scalars, the reserved tag)
keeps the path count. -/

def tagWeight (var : Variable) (tag : String) : Nat :=
  let base := (_get_caps_options tag).1
  if base = "latestversion" then 1
  else
    match lookupVar var base with
    | some (.list l) => l.length
    | _ => 1

/-- A tag is usable by the loop: reserved, or present in the descriptor. -/

def tagPresent (var : Variable) (tag : String) : Prop :=
  (_get_caps_options tag).1 = "latestversion" ∨
    (lookupVar var (_get_caps_options tag).1).isSome

/-- A tag is scalar for the purposes of substitution: reserved, or bound
to a scalar string/int. -/

def tagScalar (var : Variable) (tag : String) : Prop :=
  (_get_caps_options tag).1 = "latestversion" ∨
    (∃ s, lookupVar var (_get_caps_options tag).1 = some (.str s)) ∨
    (∃ n, lookupVar var (_get_caps_options tag).1 = some (.int n))

/-! ## Theorems for the version resolver -/

/-- A filesystem oracle on which nothing exists. -/

def falseFs : DirFs :=
  ⟨fun _ => false, fun _ => [], fun _ => false, fun _ => [],
   fun _ => [], fun _ _ => false⟩

/-! ## Concatenation engine (`preprocessor/_io.py`) — data model -/

/-- Generic association-list lookup (Python dict read). -/

def alookup {κ α : Type} [DecidableEq κ] (l : List (κ × α)) (k : κ) :
    Option α :=
  match l with
  | [] => none
  | (k', v) :: rest => if k' = k then some v else alookup rest k

/-- Generic association-list assignment (Python dict write): replace in
place when the key is present, append otherwise. -/

def aset {κ α : Type} [DecidableEq κ] (l : List (κ × α)) (k : κ) (v : α) :
    List (κ × α) :=
  match l with
  | [] => [(k, v)]
  | (k', w) :: rest =>
    if k' = k then (k, v) :: rest else (k', w) :: aset rest k v

/-- An attribute value on a cube: the source stores strings and ints. -/

inductive AttrVal where
  | str (s : String)
  | int (n : Int)

deriving DecidableEq, Repr

/-- Python `str()` of an attribute value. -/

def renderAttr : AttrVal → String
  | .str s => s
  | .int n => toString n

/-- One cell of a cube's time series: its time coordinate value, the
calendar year that time falls in (what `add_year` derives and the
`year` auxiliary coordinate exposes), and the data value carried. -/

structure Point where
  time : Int
  year : Int
  val : Int

deriving DecidableEq, Repr

/-- In-memory array dataset (iris cube) as the concatenation engine sees
it: an ordered time series of points and an attribute dictionary.
`shape` / `coordDims` describe the array layout consulted only by
`save`'s chunking hints, and `lazy` models `has_lazy_data()`. -/

structure Cube where
  points : List Point
  attrs : List (String × AttrVal)
  shape : List Nat := []
  coordDims : List (String × List Nat) := []
  lazy : Bool := false

deriving DecidableEq, Repr

/-- Merge one attribute value into an existing one
(`_io.fix_cube_attributes`): keep the current value when the new one's
string form is already a substring of the current one's, otherwise
concatenate them with a `|`. -/

def mergeAttrVal (cur new : AttrVal) : AttrVal :=
  if containsSub (renderAttr cur).data (renderAttr new).data then cur
  else .str (renderAttr cur ++ "|" ++ renderAttr new)

/-- Fold one cube's attributes into the running merged dictionary. -/

def addAttrs (acc : List (String × AttrVal))
    (kvs : List (String × AttrVal)) : List (String × AttrVal) :=
  kvs.foldl (fun acc kv =>
    match alookup acc kv.1 with
    | none => acc ++ [kv]
    | some cur => aset acc kv.1 (mergeAttrVal cur kv.2)) acc

/-- `_io.fix_cube_attributes` (lines 81-94): unify the attributes of a
cube list into one merged dictionary. -/

def fix_cube_attributes (cubes : List Cube) : List (String × AttrVal) :=
  cubes.foldl (fun acc c => addAttrs acc c.attrs) []

/-- `_io._fix_cube_metadata` (lines 124-146) as far as this model
reaches: every cube receives the merged attribute dictionary.  (The
source also strips temporal auxiliary coordinates and repairs degree
units; auxiliary coordinates and units are not part of this cube
model — the `year` values live on the points themselves.) -/

def _fix_cube_metadata (cubes : List Cube) : List Cube :=
  let merged := fix_cube_attributes cubes
  cubes.map (fun c => { c with attrs := merged })

/-- The single-year slice of a cube (`cube.extract(iris.Constraint
(year=year))`): the points of that calendar year, in cube order. -/

def sliceOf (c : Cube) (y : Int) : List Point :=
  c.points.filter (fun p => decide (p.year = y))

/-- First-occurrence deduplication with an accumulator of already-seen
keys. -/

def dedupFirstAux (seen : List Int) : List Int → List Int
  | [] => []
  | x :: r =>
    if x ∈ seen then dedupFirstAux seen r
    else x :: dedupFirstAux (x :: seen) r

/-- The distinct years of a cube's points.  The source iterates
`set(cube.coord('year').points)`, whose order Python does not specify;
this model determinizes to first-occurrence order, which is harmless
because the concatenation below orders slices by time and the claims'
attributes are overwritten afterwards. -/

def yearsOf (c : Cube) : List Int :=
  dedupFirstAux [] (c.points.map (·.year))

/-- `_io._get_cube_dict` (lines 157-169): partition a cube into year-keyed
single-year slices.  (Removing and re-adding the `year` coordinate is the
identity here since `year` is intrinsic to each point.) -/

def _get_cube_dict (c : Cube) : List (Int × Cube) :=
  (yearsOf c).map (fun y => (y, { c with points := sliceOf c y }))

/-- Python `dict.update`: keys of `old` keep their order with values
overwritten from `new` where present; keys only in `new` are appended in
`new`'s order. -/

def updateDict (old new : List (Int × Cube)) : List (Int × Cube) :=
  (old.map (fun e =>
    match alookup new e.1 with
    | some v => (e.1, v)
    | none => e)) ++
  new.filter (fun e => (alookup old e.1).isNone)

/-- The time value of a cube's first point (sort key used to order
sub-cubes along the time dimension). -/

def headTime (c : Cube) : Int :=
  match c.points with
  | [] => 0
  | p :: _ => p.time

/-- Whether a list of time values is strictly increasing. -/

def strictlyIncreasing : List Int → Bool
  | [] => true
  | [_] => true
  | a :: b :: r => decide (a < b) && strictlyIncreasing (b :: r)

/-- External `CubeList.concatenate_cube` at the point the engine calls it
(metadata already unified, `check_aux_coords=False`): order the sub-cubes
along the time dimension and join them; fail when the list is empty, when
metadata still differs, or when the joined time coordinate is not
strictly monotone (overlapping or interleaving sub-cubes). -/

def concatenate_cube (cubes : List Cube) : Except String Cube :=
  match cubes with
  | [] => .error "can not concatenate an empty CubeList"
  | c0 :: _ =>
    if cubes.all (fun c => decide (c.attrs = c0.attrs)) then
      let sorted := List.insertionSort
        (fun a b : Cube => headTime a ≤ headTime b) cubes
      let pts := (sorted.map (·.points)).flatten
      if strictlyIncreasing (pts.map (·.time)) then
        .ok { c0 with points := pts }
      else .error "failed to concatenate into a single cube"
    else .error "cube metadata differs"

/-- The `year` auxiliary coordinate of a cube (`add_year` re-derives it
from the time coordinate; here it is the points' year field). -/

def yearCoordPoints (c : Cube) : List Int := c.points.map (·.year)

/-- The final attribute fixup of `_concatenate_along_time` (lines
220-221): tag the cube with the first and last year of its realized
time coordinate. -/

def finalAttrs (fc : Cube) : List (String × AttrVal) :=
  aset
    (aset fc.attrs "start_year"
      (AttrVal.int ((yearCoordPoints fc).headD 0)))
    "end_year" (AttrVal.int ((yearCoordPoints fc).getLastD 0))

/-- `_io._concatenate_along_time` (lines 172-222): partition both cubes
into year slices, overwrite overlapping years with the new data, rebuild
one cube, and tag it with its realized start and end year.  Re-deriving
the calendar auxiliary coordinates and realizing the data are the
identity on this model, and the frequency check only emits warnings, so
neither changes the returned cube. -/

def _concatenate_along_time (old_cube new_cube : Cube) :
    Except String Cube :=
  let old_cube_dict := _get_cube_dict old_cube
  let new_cube_dict := _get_cube_dict new_cube
  let merged := updateDict old_cube_dict new_cube_dict
  let cubes := _fix_cube_metadata (merged.map (·.2))
  match concatenate_cube cubes with
  | .error e => .error e
  | .ok fc => .ok { fc with attrs := finalAttrs fc }

/-! ## Concatenation engine — filesystem state and fallback writes -/

/-- Contents of one file on disk: a loadable cube list, or bytes iris
cannot read. -/

inductive FileData where
  | cubes (cs : List Cube)
  | corrupt

deriving DecidableEq, Repr

/-- The mutable filesystem the save path touches: files by path, plus
the set of directories that exist. -/

structure FsState where
  files : List (String × FileData)
  dirs : List String

deriving DecidableEq, Repr

/-- Content of a path, if a file is there. -/

def getFile (st : FsState) (f : String) : Option FileData :=
  alookup st.files f

/-- Python `os.path.isfile`. -/

def isfile (st : FsState) (f : String) : Bool := (getFile st f).isSome

/-- `iris.save(...)` to a target path: create or overwrite. -/

def writeFile (st : FsState) (f : String) (d : FileData) : FsState :=
  { st with files := aset st.files f d }

/-- Drop a path's file entry. -/

def removeFile (st : FsState) (f : String) : FsState :=
  { st with files := st.files.filter (fun e => decide (e.1 ≠ f)) }

/-- Python `os.rename` on files: move content to the new path,
overwriting it. -/

def renameFile (st : FsState) (f nf : String) : FsState :=
  match getFile st f with
  | some d => writeFile (removeFile st f) nf d
  | none => st

/-- `iris.load` on an existing target: the `try` in
`_concatenate_output` catches every exception, so unreadable bytes and
an empty load (which iris reports as an error) both surface here as
`error`. -/

def loadCubes (st : FsState) (f : String) : Except String (List Cube) :=
  match getFile st f with
  | some (.cubes cs) =>
    if cs = [] then .error "no cubes found in file" else .ok cs
  | some .corrupt => .error "file appears to be corrupt"
  | none => .error "no such file"

/-- `_io._create_new_filename` (lines 225-231): append the year range (if
given) and a timestamp, and tag the name `FAILED`.  `now` is the
`datetime.utcnow()` timestamp string, passed in explicitly. -/

def _create_new_filename (filename : String) (years : Option (List String))
    (now : String) : String :=
  let fn := match years with
    | some ys =>
      String.mk (replaceSub filename.data ".nc".data
        ("_" ++ String.mk (joinSep "-".data
          (ys.map (fun s : String => s.data))) ++ ".nc").data)
    | none => filename
  String.mk (replaceSub fn.data ".nc".data
    ("_" ++ now ++ ".nc.FAILED").data)

/-- The `years` list `_save_new_cube_individually` builds from the new
cube's `start_year` / `end_year` attributes (stringified, `None` when
both are absent). -/

def mkYears (nsy ney : Option AttrVal) : Option (List String) :=
  let years :=
    (match nsy with
     | some v => [renderAttr v]
     | none => []) ++
    (match ney with
     | some v => [renderAttr v]
     | none => [])
  if years = [] then none else some years

/-- `_io._save_new_cube_individually` (lines 234-252): write the new
cubes unmerged under the timestamped FAILED-tagged filename, logging the
cause. -/

def _save_new_cube_individually (cubes : List Cube) (target : String)
    (now : String) (nsy ney : Option AttrVal) (msg : String)
    (st : FsState) : FsState × List String :=
  let target' := _create_new_filename target (mkYears nsy ney) now
  (writeFile st target' (.cubes cubes),
   [msg, "Saving cubes to " ++ target'])

/-- `_io._concatenate_output` (lines 255-308): the concatenation engine's
state machine per output file.  The function is total — every failure
mode degrades to a write under a different name; the returned strings
are the warnings it logs. -/

def _concatenate_output (cubes : List Cube) (filename : String)
    (now : String) (st : FsState) : FsState × List String :=
  match cubes with
  | [] => (st, ["Cannot save " ++ filename ++ ", got empty CubeList"])
  | c :: rest =>
    let nsy := alookup c.attrs "start_year"
    let ney := alookup c.attrs "end_year"
    if ¬ isfile st filename then
      (writeFile st filename (.cubes cubes), [])
    else if rest ≠ [] then
      _save_new_cube_individually cubes filename now nsy ney
        ("Saving cubes in concatenation mode is not possible for " ++
         "CubeLists with more than one element, got " ++
         toString cubes.length) st
    else
      match loadCubes st filename with
      | .error exc =>
        let new_filename := _create_new_filename filename none now
        let st' := renameFile st filename new_filename
        (writeFile st' filename (.cubes cubes),
         ["Saving cubes in concatenation mode is not possible, " ++
          "existing file " ++ filename ++ " appears to be corrupt: " ++ exc,
          "Moving existing file to " ++ new_filename ++
          " and saving new cubes to " ++ filename])
      | .ok old_cubes =>
        if old_cubes.length > 1 then
          _save_new_cube_individually cubes filename now nsy ney
            ("Saving cubes in concatenation mode is not possible if old " ++
             "file at " ++ filename ++ " contains a CubeList with more " ++
             "than one element, got " ++ toString cubes.length) st
        else
          match old_cubes with
          | [old] =>
            match _concatenate_along_time old c with
            | .error exc =>
              _save_new_cube_individually cubes filename now nsy ney
                ("Could not concatenate old and new cube along time: " ++
                 exc) st
            | .ok new_cube =>
              (writeFile st filename (.cubes [new_cube]),
               ["Successfully concatenated cube to " ++ filename])
          | _ => (st, [])

/-- Python `os.path.dirname` for `'/'`-separated paths. -/

def pyDirname (f : String) : String :=
  match findIdxFrom (· = '/') f.data.reverse 0 with
  | none => ""
  | some rIdx =>
    let i := f.data.length - rIdx
    let head := f.data.take i
    if head.all (· = '/') then String.mk head
    else String.mk (head.reverse.dropWhile (· = '/')).reverse

/-- Errors the regular save path can raise (the concatenation branch
itself raises none): `cubes[0]` on an empty batch, `os.makedirs('')`,
and `cube.coord_dims` on an unknown coordinate name. -/

inductive SaveErr where
  | indexError
  | makedirsError
  | coordNotFound (name : String)

deriving DecidableEq, Repr

/-- Python `os.makedirs`: fails on the empty dirname (the caller checked
the directory does not exist yet). -/

def makedirs (d : String) (st : FsState) : Except SaveErr FsState :=
  if d = "" then .error .makedirsError
  else .ok { st with dirs := d :: st.dirs }

/-- `cube.coord_dims(name)`: the dimensions a named coordinate spans,
failing like iris when the coordinate does not exist. -/

def coord_dims (c : Cube) (name : String) : Except SaveErr (List Nat) :=
  match alookup c.coordDims name with
  | some d => .ok d
  | none => .error (.coordNotFound name)

/-- The `chunksizes` hint `save` computes for `optimize_access` (lines
364-380); it is passed to the external writer and has no further
observable effect on the file model. -/

def computeChunks (c : Cube) (oa : String) :
    Except SaveErr (List Nat) := do
  let dims ←
    if oa = "map" then do
      let la ← coord_dims c "latitude"
      let lo ← coord_dims c "longitude"
      pure (la ++ lo)
    else if oa = "timeseries" then coord_dims c "time"
    else do
      let ds ← (splitOnChar ' ' oa.data).mapM
        (fun t => coord_dims c (String.mk t))
      pure ds.flatten
  pure (c.shape.enum.map (fun e => if e.1 ∈ dims then e.2 else 1))

/-- `_io.save` (lines 311-400).  Returns the final filesystem, the log
messages, and the returned filename.  `now` feeds the timestamp of any
fallback filename. -/

def save (cubes : List Cube) (filename : String) (optimize_access : String)
    (concatenate_output : Bool) (force_saving : Bool) (now : String)
    (st : FsState) : Except SaveErr (FsState × List String × String) := do
  let dirname := pyDirname filename
  let st ← if dirname ∈ st.dirs then pure st else makedirs dirname st
  let _ ←
    (if optimize_access ≠ "" then
      match cubes with
      | [] => (.error .indexError : Except SaveErr Unit)
      | c :: _ => (computeChunks c optimize_access).map (fun _ => ())
    else .ok ())
  if concatenate_output then
    let r := _concatenate_output cubes filename now st
    return (r.1, r.2, filename)
  else
    if isfile st filename ∧ cubes.all (·.lazy) ∧ ¬ force_saving then
      return (st, ["Not saving cubes to avoid data loss"], filename)
    else
      return (writeFile st filename (.cubes cubes),
        ["Saving cubes to " ++ filename], filename)

/-- The merged year-key list: the old cube's years in order, then the
new cube's years not already present. -/

def mergedYears (old_cube new_cube : Cube) : List Int :=
  yearsOf old_cube ++
    (yearsOf new_cube).filter (fun y => decide (y ∉ yearsOf old_cube))

/-- The merged dictionary's slice for a year, with the unified attribute
dictionary `A`: years of the new cube take the new data, all others keep
the old data. -/

def mergedSliceCube (old_cube new_cube : Cube)
    (A : List (String × AttrVal)) (y : Int) : Cube :=
  if y ∈ yearsOf new_cube then
    { new_cube with points := sliceOf new_cube y, attrs := A }
  else
    { old_cube with points := sliceOf old_cube y, attrs := A }

/-- Two cubes whose points never share a calendar year. -/

def cubeYearDisjoint (a b : Cube) : Prop :=
  ∀ p ∈ a.points, ∀ q ∈ b.points, p.year ≠ q.year

/-- Existing single-dataset file covering the years 2000-2005 (old data
marked with value 1). -/

def oldCubeEx : Cube :=
  { points := [⟨2000, 2000, 1⟩, ⟨2001, 2001, 1⟩, ⟨2002, 2002, 1⟩,
               ⟨2003, 2003, 1⟩, ⟨2004, 2004, 1⟩, ⟨2005, 2005, 1⟩],
    attrs := [] }

/-- New single dataset covering the years 2005-2010 (new data marked
with value 2). -/

def newCubeEx : Cube :=
  { points := [⟨2005, 2005, 2⟩, ⟨2006, 2006, 2⟩, ⟨2007, 2007, 2⟩,
               ⟨2008, 2008, 2⟩, ⟨2009, 2009, 2⟩, ⟨2010, 2010, 2⟩],
    attrs := [] }

/-- The merged result: 2000-2010, the overlap year 2005 carrying the new
data, tagged with its realized start and end year. -/

def mergedCubeEx : Cube :=
  { points := [⟨2000, 2000, 1⟩, ⟨2001, 2001, 1⟩, ⟨2002, 2002, 1⟩,
               ⟨2003, 2003, 1⟩, ⟨2004, 2004, 1⟩, ⟨2005, 2005, 2⟩,
               ⟨2006, 2006, 2⟩, ⟨2007, 2007, 2⟩, ⟨2008, 2008, 2⟩,
               ⟨2009, 2009, 2⟩, ⟨2010, 2010, 2⟩],
    attrs := [("start_year", .int 2000), ("end_year", .int 2010)] }

/-! ## Directory/file locator (`_data_finder` lines 190-265) -/

/-- A project's directory-structure entry in the config-developer table:
either a single template string or a mapping from structure name to
template. -/

inductive DrsVal where
  | single (s : String)
  | table (m : List (String × String))

deriving DecidableEq, Repr

/-- The slice of a project's configuration the locator reads. -/

structure ProjCfg where
  input_dir : DrsVal
  input_file : DrsVal

deriving DecidableEq, Repr

/-- Which template `_select_drs` is asked for. -/

inductive InputKind where
  | input_dir
  | input_file

deriving DecidableEq, Repr

/-- `get_project_config` lives in `_config.py`, outside the sources
here; it is an oracle mapping a project name to its configuration
(`none` models the lookup failure for an unknown project). -/

def ProjectConfig := String → Option ProjCfg

/-- Read a descriptor key (`variable[key]`), raising `KeyError` when it
is absent. -/

def getVar (var : Variable) (k : String) : Except DFErr Value :=
  match lookupVar var k with
  | some v => .ok v
  | none => .error (.keyError k)

/-- Read a descriptor key that the source uses as a string (project
names); descriptors bind these to strings. -/

def getVarStr (var : Variable) (k : String) : Except DFErr String :=
  match lookupVar var k with
  | some (.str s) => .ok s
  | some _ => .error (.typeError k)
  | none => .error (.keyError k)

/-- Read a descriptor key the source compares as an integer
(`start_year` / `end_year`). -/

def getVarInt (var : Variable) (k : String) : Except DFErr Int :=
  match lookupVar var k with
  | some (.int n) => .ok n
  | some _ => .error (.typeError k)
  | none => .error (.keyError k)

/-- `_data_finder._select_drs` (lines 190-203): a plain string template
is used directly; a structured entry is indexed by the project's
structure name from the `drs` table (default `"default"`), raising
`KeyError` when that structure is not configured. -/

def _select_drs (input_type : InputKind) (drs : List (String × String))
    (project : String) (cfg : ProjectConfig) : Except DFErr String :=
  match cfg project with
  | none => .error (.configError project)
  | some c =>
    let input_path :=
      match input_type with
      | .input_dir => c.input_dir
      | .input_file => c.input_file
    match input_path with
    | .single s => .ok s
    | .table m =>
      let structName := (alookup drs project).getD "default"
      match alookup m structName with
      | some t => .ok t
      | none => .error (.keyError structName)

/-- `_data_finder.get_rootpath` (lines 206-212): the project's root
paths, else the `"default"` entry, else a fatal configuration error. -/

def get_rootpath (rootpath : List (String × List String))
    (project : String) : Except DFErr (List String) :=
  match alookup rootpath project with
  | some r => .ok r
  | none =>
    match alookup rootpath "default" with
    | some r => .ok r
    | none => .error (.keyError "default")

/-- `_data_finder._find_input_dirs` (lines 215-236): expand the
directory template, join it to every root path, resolve the version
placeholder, glob, and keep only existing directories. -/

def _find_input_dirs (var : Variable)
    (rootpath : List (String × List String))
    (drs : List (String × String)) (cfg : ProjectConfig) (fs : DirFs) :
    Except DFErr (List String) := do
  let project ← getVarStr var "project"
  let root ← get_rootpath rootpath project
  let path_template ← _select_drs .input_dir drs project cfg
  let tmpls ← _replace_tags path_template var
  tmpls.foldlM (fun acc t =>
    root.foldlM (fun acc base => do
      let dirname := String.mk (pyJoin base.data t.data)
      let dirname ← _resolve_latestversion dirname fs
      pure (acc ++ ((fs.glob dirname).filter fs.isdir))) acc) []

/-- `_data_finder._get_filenames_glob` (lines 239-243). -/

def _get_filenames_glob (var : Variable) (drs : List (String × String))
    (cfg : ProjectConfig) : Except DFErr (List String) := do
  let project ← getVarStr var "project"
  let path_template ← _select_drs .input_file drs project cfg
  _replace_tags path_template var

/-- `_data_finder.find_files` (lines 20-31): walk every directory and
collect the walked files matching any of the patterns. -/

def find_files (dirnames filenames : List String) (fs : DirFs) :
    List String :=
  dirnames.flatMap (fun d =>
    (fs.walk d).flatMap (fun pr =>
      filenames.flatMap (fun pat =>
        (pr.2.filter (fun f => fs.fnmatch f pat)).map
          (fun f => String.mk (pyJoin pr.1.data f.data)))))

/-- `_data_finder._find_input_files` (lines 246-251). -/

def _find_input_files (var : Variable)
    (rootpath : List (String × List String))
    (drs : List (String × String)) (cfg : ProjectConfig) (fs : DirFs) :
    Except DFErr (List String) := do
  let input_dirs ← _find_input_dirs var rootpath drs cfg fs
  let filenames_glob ← _get_filenames_glob var drs cfg
  pure (find_files input_dirs filenames_glob fs)

/-- The tail of `get_input_filelist` (lines 260-265): find the files and
time-gate them unless the variable is time-invariant (`fx`). -/

def _time_gated_files (var : Variable)
    (rootpath : List (String × List String))
    (drs : List (String × String)) (cfg : ProjectConfig) (fs : DirFs)
    (cfs : ContentFs) : Except DFErr (List String) := do
  let files ← _find_input_files var rootpath drs cfg fs
  let fq ← getVar var "frequency"
  if fq ≠ Value.str "fx" then do
    let sy ← getVarInt var "start_year"
    let ey ← getVarInt var "end_year"
    select_files files sy ey cfs
  else
    pure files

/-- `_data_finder.get_input_filelist` (lines 254-265).  The source
mutates the caller's descriptor in place
(`variable['ensemble'] = 'r0i0p0'`) for time-invariant CMIP5 requests;
the returned `Variable` is the descriptor's state after the call.  The
`and` of the source's guard is short-circuiting, mirrored by nesting. -/

def get_input_filelist (var : Variable)
    (rootpath : List (String × List String))
    (drs : List (String × String)) (cfg : ProjectConfig) (fs : DirFs)
    (cfs : ContentFs) : Except DFErr (List String × Variable) := do
  let prj ← getVar var "project"
  let var' ←
    (if prj = Value.str "CMIP5" then do
      let fq ← getVar var "frequency"
      pure (if fq = Value.str "fx" then
        setVar var "ensemble" (Value.str "r0i0p0") else var)
    else pure var)
  let files ← _time_gated_files var' rootpath drs cfg fs cfs
  pure (files, var')

/-! ## Citation writer (`_citation.py`) -/

/-- `_citation.ESMVALTOOL_PAPER` (lines 21-39): the fixed tool-citation
bibtex entry. -/

def ESMVALTOOL_PAPER : String :=
  "@article\x7brighi19gmd,\n" ++
  "\tdoi = \x7b10.5194/gmd-2019-226\x7d,\n" ++
  "\turl = \x7bhttps://doi.org/10.5194%2Fgmd-2019-226\x7d,\n" ++
  "\tyear = 2019,\n" ++
  "\tmonth = \x7bsep\x7d,\n" ++
  "\tpublisher = \x7bCopernicus \x7bGmbH\x7d\x7d,\n" ++
  "\tauthor = \x7bMattia Righi and Bouwe Andela and Veronika Eyring " ++
  "and Axel Lauer and Valeriu Predoi and Manuel Schlund " ++
  "and Javier Vegas-Regidor and Lisa Bock and Björn Brötz " ++
  "and Lee de Mora and Faruk Diblen and Laura Dreyer " ++
  "and Niels Drost and Paul Earnshaw and Birgit Hassler " ++
  "and Nikolay Koldunov and Bill Little and Saskia Loosveldt Tomas " ++
  "and Klaus Zimmermann\x7d,\n" ++
  "\ttitle = \x7b\x7bESMValTool\x7d v2.0 " ++
  "\x7b\\&\x7damp$\\mathsemicolon$\x7b\\#\x7d8211$\\mathsemicolon$ " ++
  "Technical overview\x7d\n" ++
  "\x7d\n"

/-- A `\w` word character (ASCII model of the `re` pattern). -/

def isWordChar (c : Char) : Bool := c.isAlphanum || c = '_'

/-- Maximal word-character runs of a string (`re.findall` of the word
pattern), with the reversed run in progress as accumulator. -/

def wordRunsAux : List Char → List Char → List String
  | acc, [] => if acc.isEmpty then [] else [String.mk acc.reverse]
  | acc, c :: r =>
    if isWordChar c then wordRunsAux (c :: acc) r
    else if acc.isEmpty then wordRunsAux [] r
    else String.mk acc.reverse :: wordRunsAux [] r

/-- Python `repr` of a list of plain strings, as `str(tags)` renders it. -/

def pyReprStrList (l : List String) : String :=
  "[" ++
    String.mk (joinSep ", ".data
      (l.map (fun s : String => ("'" ++ s ++ "'").data))) ++ "]"

/-- First-occurrence deduplication for strings (determinizing the
source's `list(set(...))`, whose order Python leaves unspecified). -/

def dedupFirstStrAux (seen : List String) : List String → List String
  | [] => []
  | x :: r =>
    if x ∈ seen then dedupFirstStrAux seen r
    else x :: dedupFirstStrAux (x :: seen) r

/-- `_citation._extract_tags` (lines 106-111): the word tokens of the
stringified tag list, deduplicated. -/

def _extract_tags (tags : List String) : List String :=
  dedupFirstStrAux [] (wordRunsAux [] (pyReprStrList tags).data)

/-- The ordered bibliography entries `_save_citation_info` builds: the
fixed tool citation first, then the nonempty CMIP6 citations (the
network lookup is the oracle `collectCmip`, returning the empty string
on failure), then — when a references directory is configured and tags
exist — one entry per extracted tag from the oracle `collectBib` (which
returns the empty string for a missing reference file, appended
unfiltered). -/

def citation_entries (product_tags json_urls : List String)
    (refPathSet : Bool) (collectCmip collectBib : String → String) :
    List String :=
  let entries := [ESMVALTOOL_PAPER]
  let entries := entries ++
    (json_urls.map collectCmip).filter (fun s => s ≠ "")
  entries ++
    (if refPathSet ∧ product_tags ≠ [] then
      (_extract_tags product_tags).map collectBib
    else [])

/-- `_citation._save_citation_info` (lines 77-103): the files the
citation writer produces, as (name, content) pairs — an optional
unresolved-citation-info text file, then the bibliography file. -/

def _save_citation_info (product_name : String)
    (product_tags json_urls info_urls : List String) (refPathSet : Bool)
    (collectCmip collectBib : String → String) :
    List (String × String) :=
  let title := "Some citation information are found, " ++
    "which are not mentioned in the recipe or diagnostic."
  let written :=
    if info_urls ≠ [] then
      [(product_name ++ "_data_citation_info.txt",
        String.mk (joinSep "\n".data
          ((title :: dedupFirstStrAux [] info_urls).map
            (fun s : String => s.data))))]
    else []
  written ++
    [(product_name ++ "_citation.bibtex",
      String.mk (joinSep "\n".data
        ((citation_entries product_tags json_urls refPathSet collectCmip
          collectBib).map (fun s : String => s.data))))]

/-! ## Theorems -/

/-! ## Theorems for the date parser and the time-window filter -/

/-- C5 counterexample: the filename `tas_0000.nc` has exactly one retained
date-like token, `0000`, whose first 4 digits give the integer 0; the
claim says the parser returns start year = end year = 0, but the code's
final Python-truthiness check (`if not start_year or not end_year`)
treats the year 0 like an unset year and raises the date-not-found error
instead. -/

theorem date_parser_zero_year_counterexample :
    retainedTokens "tas_0000.nc" = ["0000".data] ∧
    get_start_end_year "tas_0000.nc" noFs =
      .error (.dateNotFound "tas_0000.nc") := by
  constructor
  · decide
  · decide

/-- C5 (amended): with exactly one retained date-like token whose leading
4 digits are a nonzero year, the parser returns that year as both start
and end; with exactly two retained tokens whose leading 4 digits are both
nonzero, it returns them in encountered order with no reordering; a year
parsing to 0 instead falls into the date-not-found error path.  In
particular `tas_Amon_MODEL_1950-1999.nc` parses to `(1950, 1999)` and
`tas_2001.nc` parses to `(2001, 2001)`. -/

theorem date_parser_pattern_years :
    (∀ (name : String) (fs : ContentFs) (d : List Char),
      retainedTokens name = [d] → first4Int d ≠ 0 →
      get_start_end_year name fs = .ok (first4Int d, first4Int d)) ∧
    (∀ (name : String) (fs : ContentFs) (d1 d2 : List Char),
      retainedTokens name = [d1, d2] →
      first4Int d1 ≠ 0 → first4Int d2 ≠ 0 →
      get_start_end_year name fs = .ok (first4Int d1, first4Int d2)) ∧
    get_start_end_year "tas_Amon_MODEL_1950-1999.nc" noFs =
      .ok (1950, 1999) ∧
    get_start_end_year "tas_2001.nc" noFs = .ok (2001, 2001) := by
  refine ⟨?_, ?_, by decide, by decide⟩
  · intro name fs d hret hnz
    unfold get_start_end_year
    rw [hret]
    simp [hnz]
  · intro name fs d1 d2 hret h1 h2
    unfold get_start_end_year
    rw [hret]
    simp [h1, h2]

/-- Witness for `date_parser_pattern_years`: evaluated at
`tas_Amon_MODEL_1950-1999.nc`. -/

theorem date_parser_pattern_years_witness :
    get_start_end_year "tas_Amon_MODEL_1950-1999.nc" noFs =
      .ok (first4Int "1950".data, first4Int "1999".data) :=
  date_parser_pattern_years.2.1 "tas_Amon_MODEL_1950-1999.nc" noFs
    "1950".data "1999".data (by decide) (by decide) (by decide)

/-- Helper: the content-fallback loop finds nothing when no cube carries a
time coordinate. -/

theorem findSomeTime_none {l : List ContentCube}
    (h : ∀ c ∈ l, c.timeYears = none) :
    l.findSome? (·.timeYears) = none := by
  induction l with
  | nil => rfl
  | cons c rest ih =>
    have hc := h c (by simp)
    simp only [List.findSome?]
    rw [hc]
    exact ih (fun d hd => h d (by simp [hd]))

/-- C6: pattern parsing is always tried first — with one or two retained
tokens the result never consults the file's content; with zero or more
than two retained tokens the parser falls back to the file content and
(a) fails with the unreadable-file error when the file cannot be opened,
(b) fails with the date-not-found error when no loaded cube has a time
coordinate, and (c) returns the first and last calendar years of the
first cube that has a time coordinate (when both are nonzero). -/

theorem date_parser_fallback :
    (∀ (name : String) (fs fs' : ContentFs),
      (retainedTokens name).length = 1 ∨ (retainedTokens name).length = 2 →
      get_start_end_year name fs = get_start_end_year name fs') ∧
    (∀ (name : String) (fs : ContentFs),
      ¬((retainedTokens name).length = 1 ∨
        (retainedTokens name).length = 2) →
      fs name = none →
      get_start_end_year name fs = .error (.unreadableFile name)) ∧
    (∀ (name : String) (fs : ContentFs) (cubes : List ContentCube),
      ¬((retainedTokens name).length = 1 ∨
        (retainedTokens name).length = 2) →
      fs name = some cubes →
      (∀ c ∈ cubes, c.timeYears = none) →
      get_start_end_year name fs = .error (.dateNotFound name)) ∧
    (∀ (name : String) (fs : ContentFs) (cubes : List ContentCube)
       (s e : Int),
      ¬((retainedTokens name).length = 1 ∨
        (retainedTokens name).length = 2) →
      fs name = some cubes →
      cubes.findSome? (·.timeYears) = some (s, e) → s ≠ 0 → e ≠ 0 →
      get_start_end_year name fs = .ok (s, e)) := by
  refine ⟨?_, ?_, ?_, ?_⟩
  · intro name fs fs' hlen
    rcases hd : retainedTokens name with _ | ⟨d, _ | ⟨d2, _ | _⟩⟩ <;>
      rw [hd] at hlen <;> simp at hlen <;>
      unfold get_start_end_year <;> rw [hd]
  · intro name fs hlen hfs
    rcases hd : retainedTokens name with _ | ⟨d, _ | ⟨d2, _ | _⟩⟩ <;>
      rw [hd] at hlen <;> try (simp at hlen)
    all_goals unfold get_start_end_year
    all_goals rw [hd]
    all_goals simp [hfs]
  · intro name fs cubes hlen hfs hnone
    rcases hd : retainedTokens name with _ | ⟨d, _ | ⟨d2, _ | _⟩⟩ <;>
      rw [hd] at hlen <;> try (simp at hlen)
    all_goals unfold get_start_end_year
    all_goals rw [hd]
    all_goals simp [hfs, findSomeTime_none hnone]
  · intro name fs cubes s e hlen hfs hfind hs he
    rcases hd : retainedTokens name with _ | ⟨d, _ | ⟨d2, _ | _⟩⟩ <;>
      rw [hd] at hlen <;> try (simp at hlen)
    all_goals unfold get_start_end_year
    all_goals rw [hd]
    all_goals simp [hfs, hfind, hs, he]

/-- Witness for `date_parser_fallback`: a name with three numeric
date-like tokens and no readable content fails with the date-not-found
style error only through the content path; here the unreadable-file case
at a concrete input. -/

theorem date_parser_fallback_witness :
    get_start_end_year "pr_1111_2222_3333.nc" noFs =
      .error (.unreadableFile "pr_1111_2222_3333.nc") :=
  date_parser_fallback.2.1 "pr_1111_2222_3333.nc" noFs (by decide) rfl

/-- C3: the time-window filter retains exactly the files whose parsed
range `[start, end]` satisfies `start <= request.end` and
`end >= request.start`, preserving input order (a `List.filter` of the
input); a file whose date parse fails makes the whole call fail rather
than silently excluding the file.  In particular a file spanning
`[1990, 1999]` is retained for the request windows `[1995, 2000]` and
`[1980, 1990]` and excluded for `[2000, 2010]`. -/

theorem time_window_filter :
    (∀ (files : List String) (sy ey : Int) (fs : ContentFs),
      (∀ f ∈ files, (get_start_end_year f fs).isOk) →
      select_files files sy ey fs = .ok (files.filter (selectKeep sy ey fs))) ∧
    (∀ (files : List String) (sy ey : Int) (fs : ContentFs) (f : String)
       (err : DFErr),
      f ∈ files → get_start_end_year f fs = .error err →
      ∃ err' : DFErr, select_files files sy ey fs = .error err') ∧
    select_files ["x_1990-1999.nc"] 1995 2000 noFs = .ok ["x_1990-1999.nc"] ∧
    select_files ["x_1990-1999.nc"] 1980 1990 noFs = .ok ["x_1990-1999.nc"] ∧
    select_files ["x_1990-1999.nc"] 2000 2010 noFs = .ok [] := by
  refine ⟨?_, ?_, by decide, by decide, by decide⟩
  · intro files sy ey fs hok
    induction files with
    | nil => rfl
    | cons f rest ih =>
      have hf := hok f (by simp)
      cases hg : get_start_end_year f fs with
      | error e => rw [hg] at hf; simp [Except.isOk, Except.toBool] at hf
      | ok se =>
        obtain ⟨s, e⟩ := se
        have hrest := ih (fun g hg' => hok g (by simp [hg']))
        simp only [select_files, hg, List.filter, bind, Except.bind, hrest,
          selectKeep]
        by_cases hkeep : s ≤ ey ∧ e ≥ sy
        · simp [hkeep, pure, Except.pure]
        · simp [hkeep, pure, Except.pure]
  · intro files sy ey fs f err hmem herr
    induction files with
    | nil => simp at hmem
    | cons g rest ih =>
      rcases List.mem_cons.mp hmem with hg | hg
      · subst hg
        exact ⟨err, by simp [select_files, herr, bind, Except.bind]⟩
      · cases hgg : get_start_end_year g fs with
        | error e2 =>
          exact ⟨e2, by simp [select_files, hgg, bind, Except.bind]⟩
        | ok se =>
          obtain ⟨s2, e2⟩ := se
          obtain ⟨err', herr'⟩ := ih hg
          exact ⟨err', by simp [select_files, hgg, bind, Except.bind, herr']⟩

/-- Witness for `time_window_filter`: the filter evaluated on a concrete
list, and the propagation clause at a file with no parsable date. -/

theorem time_window_filter_witness :
    (select_files ["x_1990-1999.nc", "x_2003-2004.nc"] 1995 2000 noFs =
      .ok (["x_1990-1999.nc", "x_2003-2004.nc"].filter
        (selectKeep 1995 2000 noFs))) ∧
    (∃ err' : DFErr,
      select_files ["nodate.nc"] 1995 2000 noFs = .error err') :=
  ⟨time_window_filter.1 ["x_1990-1999.nc", "x_2003-2004.nc"] 1995 2000 noFs
      (by decide),
   time_window_filter.2.1 ["nodate.nc"] 1995 2000 noFs "nodate.nc"
      (.unreadableFile "nodate.nc") (by decide) (by decide)⟩

/-- C7 counterexample: a template in which the version placeholder occurs
twice.  The claim says every template containing the placeholder whose
prefix does not exist resolves to itself without error, but the source's
two-way unpack of `split('{latestversion}')` raises `ValueError` before
the filesystem is ever consulted. -/

theorem version_resolver_double_tag_counterexample :
    containsSub
      "/a/\x7blatestversion\x7d/b/\x7blatestversion\x7d".data
      latestversionTag = true ∧
    (∀ p, falseFs.pathExists p = false) ∧
    _resolve_latestversion
      "/a/\x7blatestversion\x7d/b/\x7blatestversion\x7d" falseFs =
      .error (.unpackError "latestversion occurs more than once") := by
  refine ⟨by decide, fun p => rfl, by decide⟩

/-- C7 (amended): version resolution is idempotent on templates without
the placeholder, and a template in which the placeholder occurs exactly
once (so the two-way split yields exactly a prefix and a suffix) whose
prefix path does not exist resolves to the unmodified template without
error. -/

theorem version_resolver_idempotent :
    (∀ (tmpl : String) (fs : DirFs),
      containsSub tmpl.data latestversionTag = false →
      _resolve_latestversion tmpl fs = .ok tmpl) ∧
    (∀ (tmpl : String) (fs : DirFs) (p1 p2 : List Char),
      splitOnSub tmpl.data latestversionTag = [p1, p2] →
      fs.pathExists (String.mk p1) = false →
      _resolve_latestversion tmpl fs = .ok tmpl) := by
  constructor
  · intro tmpl fs h
    unfold _resolve_latestversion
    simp [h]
  · intro tmpl fs p1 p2 hsplit hex
    unfold _resolve_latestversion
    by_cases hc : containsSub tmpl.data latestversionTag
    · simp [hc, hsplit, hex]
    · simp [hc]

/-- Witness for `version_resolver_idempotent` at concrete templates. -/

theorem version_resolver_idempotent_witness :
    _resolve_latestversion "/data/CMIP5/output" falseFs =
      .ok "/data/CMIP5/output" ∧
    _resolve_latestversion "/d/\x7blatestversion\x7d/tas" falseFs =
      .ok "/d/\x7blatestversion\x7d/tas" :=
  ⟨version_resolver_idempotent.1 "/data/CMIP5/output" falseFs (by decide),
   version_resolver_idempotent.2 "/d/\x7blatestversion\x7d/tas" falseFs
     "/d/".data "/tas".data (by decide) rfl⟩

/-! ## Theorems for the tag substitution engine -/

/-- Helper: a `flatMap` whose components all have the same length. -/

theorem length_flatMap_const {α β : Type} (l : List α) (f : α → List β)
    (n : Nat) (h : ∀ a ∈ l, (f a).length = n) :
    (l.flatMap f).length = l.length * n := by
  induction l with
  | nil => simp
  | cons a rest ih =>
    simp only [List.flatMap_cons, List.length_append, List.length_cons]
    rw [h a (by simp), ih (fun b hb => h b (by simp [hb]))]
    ring

/-- Helper: the expansion loop turns each processed tag into a factor of
the path-count, equal to its `tagWeight`. -/

theorem replaceTags_go_length (tlist : List String) (var : Variable) :
    ∀ paths : List String,
      (∀ t ∈ tlist, tagPresent var t) →
      ∃ l, _replace_tags_go tlist var paths = .ok l ∧
        l.length = paths.length * (tlist.map (tagWeight var)).prod := by
  induction tlist with
  | nil => intro paths _; exact ⟨paths, rfl, by simp⟩
  | cons tag rest ih =>
    intro paths hpres
    have htag := hpres tag (by simp)
    have hrest : ∀ t ∈ rest, tagPresent var t :=
      fun t ht => hpres t (by simp [ht])
    by_cases hbase : (_get_caps_options tag).1 = "latestversion"
    · obtain ⟨l, hl, hlen⟩ := ih paths hrest
      refine ⟨l, ?_, ?_⟩
      · simp only [_replace_tags_go, hbase]
        simpa using hl
      · simp [hlen, tagWeight, hbase]
    · rcases htag with hlat | hsome
      · exact absurd hlat hbase
      · obtain ⟨v, hv⟩ := Option.isSome_iff_exists.mp hsome
        obtain ⟨l, hl, hlen⟩ := ih (_replace_tag paths tag v) hrest
        refine ⟨l, ?_, ?_⟩
        · simp only [_replace_tags_go, hbase, if_neg hbase, hv]
          exact hl
        · rw [hlen]
          have hw : (_replace_tag paths tag v).length =
              paths.length * tagWeight var tag := by
            cases v with
            | str s => simp [_replace_tag, tagWeight, hbase, hv]
            | int n => simp [_replace_tag, tagWeight, hbase, hv]
            | list items =>
              simp only [_replace_tag, tagWeight, if_neg hbase, hv]
              rw [length_flatMap_const items _ paths.length
                (fun a _ => by simp)]
              ring
          rw [hw]
          simp only [List.map_cons, List.prod_cons]
          ring

/-- Helper: with only scalar-valued (or reserved) tags, the expansion
loop maps the single-path substitution over the current path list. -/

theorem replaceTags_go_scalar (tlist : List String) (var : Variable) :
    ∀ paths : List String,
      (∀ t ∈ tlist, tagScalar var t) →
      _replace_tags_go tlist var paths =
        .ok (paths.map (scalarSubst tlist var)) := by
  induction tlist with
  | nil => intro paths _; simp [_replace_tags_go, scalarSubst]
  | cons tag rest ih =>
    intro paths hsc
    have htag := hsc tag (by simp)
    have hrest : ∀ t ∈ rest, tagScalar var t :=
      fun t ht => hsc t (by simp [ht])
    by_cases hbase : (_get_caps_options tag).1 = "latestversion"
    · simp only [_replace_tags_go, scalarSubst, hbase]
      simpa using ih paths hrest
    · rcases htag with hlat | ⟨s, hv⟩ | ⟨n, hv⟩
      · exact absurd hlat hbase
      · simp only [_replace_tags_go, scalarSubst, if_neg hbase, hv,
          _replace_tag]
        rw [ih _ hrest, List.map_map]
        rfl
      · simp only [_replace_tags_go, scalarSubst, if_neg hbase, hv,
          _replace_tag]
        rw [ih _ hrest, List.map_map]
        rfl

/-- Helper: looking up a key untouched by a dict assignment. -/

theorem lookupVar_setVar_ne (var : Variable) (k b : String) (x : Value)
    (h : k ≠ b) : lookupVar (setVar var b x) k = lookupVar var k := by
  induction var with
  | nil => simp [setVar, lookupVar, Ne.symm h]
  | cons kv rest ih =>
    obtain ⟨k', y⟩ := kv
    by_cases hk : k' = b
    · subst hk
      simp [setVar, lookupVar, Ne.symm h]
    · simp only [setVar, if_neg hk, lookupVar]
      by_cases hkk : k' = k
      · simp [hkk]
      · simp [hkk, ih]

/-- Helper: looking up the key just assigned. -/

theorem lookupVar_setVar_self (var : Variable) (b : String) (x : Value) :
    lookupVar (setVar var b x) b = some x := by
  induction var with
  | nil => simp [setVar, lookupVar]
  | cons kv rest ih =>
    obtain ⟨k', y⟩ := kv
    by_cases hk : k' = b
    · subst hk
      simp [setVar, lookupVar]
    · simp [setVar, hk, lookupVar, ih]

/-- Helper: the single-path substitution ignores an assignment to a key
that is no processed tag's base name. -/

theorem scalarSubst_setVar_irrel (l : List String) (var : Variable)
    (b : String) (x : Value)
    (h : ∀ t ∈ l, (_get_caps_options t).1 ≠ b) :
    ∀ p, scalarSubst l (setVar var b x) p = scalarSubst l var p := by
  induction l with
  | nil => intro p; rfl
  | cons tag rest ih =>
    intro p
    have htag := h tag (by simp)
    have hrest : ∀ t ∈ rest, (_get_caps_options t).1 ≠ b :=
      fun t ht => h t (by simp [ht])
    simp only [scalarSubst, lookupVar_setVar_ne var _ b x htag]
    by_cases hbase : (_get_caps_options tag).1 = "latestversion"
    · simp [hbase, ih hrest]
    · cases lookupVar var (_get_caps_options tag).1 with
      | none => simp [hbase, ih hrest]
      | some v => cases v <;> simp [hbase, ih hrest]

/-- Helper: the single-path substitution processes an appended tag list
in two stages. -/

theorem scalarSubst_append (l1 l2 : List String) (var : Variable) :
    ∀ p, scalarSubst (l1 ++ l2) var p =
      scalarSubst l2 var (scalarSubst l1 var p) := by
  induction l1 with
  | nil => intro p; rfl
  | cons tag rest ih =>
    intro p
    by_cases hbase : (_get_caps_options tag).1 = "latestversion"
    · simp [scalarSubst, hbase, ih]
    · cases hv : lookupVar var (_get_caps_options tag).1 with
      | none => simp [scalarSubst, hbase, hv, ih]
      | some v => cases v <;> simp [scalarSubst, hbase, hv, ih]

/-- Helper: a scalar-only prefix of the tag list maps the single-path
substitution over the current paths before the rest is processed. -/

theorem replaceTags_go_prefix_scalar (l1 : List String) (var : Variable)
    (rest : List String) :
    ∀ paths, (∀ t ∈ l1, tagScalar var t) →
      _replace_tags_go (l1 ++ rest) var paths =
        _replace_tags_go rest var (paths.map (scalarSubst l1 var)) := by
  induction l1 with
  | nil => intro paths _; simp [scalarSubst]
  | cons tag l1' ih =>
    intro paths hsc
    have htag := hsc tag (by simp)
    have hrest : ∀ t ∈ l1', tagScalar var t :=
      fun t ht => hsc t (by simp [ht])
    by_cases hbase : (_get_caps_options tag).1 = "latestversion"
    · simp only [List.cons_append, _replace_tags_go, scalarSubst, hbase]
      simpa using ih paths hrest
    · rcases htag with hlat | ⟨s, hv⟩ | ⟨n, hv⟩
      · exact absurd hlat hbase
      · simp only [List.cons_append, _replace_tags_go, scalarSubst,
          if_neg hbase, hv, _replace_tag]
        have hstep := ih (List.map (replaceTagIn tag s) paths) hrest
        rw [List.map_map] at hstep
        exact hstep
      · simp only [List.cons_append, _replace_tags_go, scalarSubst,
          if_neg hbase, hv, _replace_tag]
        have hstep := ih (List.map (replaceTagIn tag (toString n)) paths)
          hrest
        rw [List.map_map] at hstep
        exact hstep

/-- Helper: fanning out over a singleton path list is a map. -/

theorem flatMap_singleton_map {α β : Type} (l : List α) (f : α → β) :
    (l.flatMap (fun x => [f x])) = l.map f := by
  induction l with
  | nil => rfl
  | cons a rest ih => simp [ih]

/-- C4: tag substitution.  (1) If every tag of the template is scalar in
the descriptor (or reserved), substitution produces exactly one path,
the sequential single-path substitution.  (2) Under mere presence of all
tags, the number of produced paths is the product of the tags' fan-out
weights (list length for a list value, 1 otherwise) — each expansion
step operates on the full current path list, so multi-valued tags
compound combinatorially.  (3) For a template whose tag list contains
exactly one tag bound to a list of N values (all others scalar),
substitution produces exactly the N paths obtained by substituting each
list value in turn, in list order. -/

theorem tag_substitution :
    (∀ (path : String) (var : Variable),
      (∀ t ∈ findTags (stripSlashes path.data), tagScalar var t) →
      _replace_tags path var =
        .ok [scalarSubst (findTags (stripSlashes path.data)) var
          (String.mk (stripSlashes path.data))]) ∧
    (∀ (path : String) (var : Variable),
      (∀ t ∈ findTags (stripSlashes path.data), tagPresent var t) →
      ∃ l, _replace_tags path var = .ok l ∧
        l.length =
          ((findTags (stripSlashes path.data)).map (tagWeight var)).prod) ∧
    (∀ (path : String) (var : Variable) (l1 l2 : List String)
       (tag b : String) (vs : List String),
      findTags (stripSlashes path.data) = l1 ++ tag :: l2 →
      (_get_caps_options tag).1 = b → b ≠ "latestversion" →
      lookupVar var b = some (.list vs) →
      (∀ t ∈ l1, tagScalar var t) → (∀ t ∈ l2, tagScalar var t) →
      (∀ t ∈ l1 ++ l2, (_get_caps_options t).1 ≠ b) →
      _replace_tags path var =
        .ok (vs.map (fun v =>
          scalarSubst (findTags (stripSlashes path.data))
            (setVar var b (.str v))
            (String.mk (stripSlashes path.data))))) := by
  refine ⟨?_, ?_, ?_⟩
  · intro path var hsc
    unfold _replace_tags
    rw [replaceTags_go_scalar _ var _ hsc]
    rfl
  · intro path var hpres
    unfold _replace_tags
    obtain ⟨l, hl, hlen⟩ :=
      replaceTags_go_length (findTags (stripSlashes path.data)) var
        [String.mk (stripSlashes path.data)] hpres
    exact ⟨l, hl, by simpa using hlen⟩
  · intro path var l1 l2 tag b vs hsplit hbase hblat hlook hsc1 hsc2 hne
    have hne1 : ∀ t ∈ l1, (_get_caps_options t).1 ≠ b :=
      fun t ht => hne t (List.mem_append_left _ ht)
    have hne2 : ∀ t ∈ l2, (_get_caps_options t).1 ≠ b :=
      fun t ht => hne t (List.mem_append_right _ ht)
    unfold _replace_tags
    show _replace_tags_go (findTags (stripSlashes path.data)) var
      [String.mk (stripSlashes path.data)] = _
    rw [hsplit]
    rw [replaceTags_go_prefix_scalar l1 var (tag :: l2) _ hsc1]
    simp only [List.map_cons, List.map_nil]
    simp only [_replace_tags_go, hbase, if_neg hblat, hlook, _replace_tag,
      List.map_cons, List.map_nil]
    rw [flatMap_singleton_map]
    rw [replaceTags_go_scalar l2 var _ hsc2]
    rw [List.map_map]
    congr 1
    apply List.map_congr_left
    intro v _
    rw [scalarSubst_append]
    rw [scalarSubst_setVar_irrel l1 var b (.str v) hne1]
    simp only [scalarSubst, hbase, if_neg hblat, lookupVar_setVar_self]
    rw [scalarSubst_setVar_irrel l2 var b (.str v) hne2]
    rfl

/-- Witness for `tag_substitution`: a two-tag template with one scalar
tag and one list tag of two values, and a one-scalar-tag template. -/

theorem tag_substitution_witness :
    (_replace_tags "\x7bdataset\x7d/\x7bensemble\x7d"
        [("dataset", Value.str "MODEL"),
         ("ensemble", Value.list ["r1", "r2"])] =
      .ok (["r1", "r2"].map (fun v =>
        scalarSubst
          (findTags (stripSlashes "\x7bdataset\x7d/\x7bensemble\x7d".data))
          (setVar
            [("dataset", Value.str "MODEL"),
             ("ensemble", Value.list ["r1", "r2"])]
            "ensemble" (Value.str v))
          (String.mk
            (stripSlashes "\x7bdataset\x7d/\x7bensemble\x7d".data))))) ∧
    (_replace_tags "\x7bdataset\x7d" [("dataset", Value.str "M")] =
      .ok [scalarSubst
        (findTags (stripSlashes "\x7bdataset\x7d".data))
        [("dataset", Value.str "M")]
        (String.mk (stripSlashes "\x7bdataset\x7d".data))]) := by
  constructor
  · refine tag_substitution.2.2 "\x7bdataset\x7d/\x7bensemble\x7d"
      [("dataset", Value.str "MODEL"),
       ("ensemble", Value.list ["r1", "r2"])]
      ["dataset"] [] "ensemble" "ensemble" ["r1", "r2"]
      (by decide) rfl (by decide) (by decide) ?_ ?_ (by decide)
    · intro t ht
      simp only [List.mem_singleton] at ht
      subst ht
      exact Or.inr (Or.inl ⟨"MODEL", by decide⟩)
    · intro t ht
      simp at ht
  · refine tag_substitution.1 "\x7bdataset\x7d"
      [("dataset", Value.str "M")] ?_
    intro t ht
    have hmem : findTags (stripSlashes "\x7bdataset\x7d".data) =
        ["dataset"] := by decide
    rw [hmem] at ht
    simp only [List.mem_singleton] at ht
    subst ht
    exact Or.inr (Or.inl ⟨"M", by decide⟩)

/-! ## Theorems for the concatenation engine -/

/-- Helper: membership in the first-occurrence dedup. -/

theorem mem_dedupFirstAux (l : List Int) :
    ∀ (seen : List Int) (y : Int),
      y ∈ dedupFirstAux seen l ↔ (y ∈ l ∧ y ∉ seen) := by
  induction l with
  | nil => intro seen y; simp [dedupFirstAux]
  | cons x r ih =>
    intro seen y
    by_cases hx : x ∈ seen
    · rw [show dedupFirstAux seen (x :: r) = dedupFirstAux seen r from by
        simp [dedupFirstAux, hx]]
      rw [ih]
      constructor
      · exact fun ⟨h1, h2⟩ => ⟨by simp [h1], h2⟩
      · rintro ⟨h1, h2⟩
        rcases List.mem_cons.mp h1 with h | h
        · exact absurd (h ▸ hx) h2
        · exact ⟨h, h2⟩
    · rw [show dedupFirstAux seen (x :: r) =
          x :: dedupFirstAux (x :: seen) r from by simp [dedupFirstAux, hx]]
      by_cases hxy : y = x
      · subst hxy
        simp [hx]
      · constructor
        · intro hmem
          rcases List.mem_cons.mp hmem with h | h
          · exact absurd h hxy
          · have hr := (ih (x :: seen) y).mp h
            exact ⟨by simp [hr.1], fun hs => hr.2 (by simp [hs])⟩
        · rintro ⟨h1, h2⟩
          rcases List.mem_cons.mp h1 with h | h
          · exact absurd h hxy
          · exact List.mem_cons.mpr (Or.inr ((ih (x :: seen) y).mpr
              ⟨h, by simp [hxy, h2]⟩))

/-- Helper: the first-occurrence dedup has no duplicates. -/

theorem nodup_dedupFirstAux (l : List Int) :
    ∀ seen : List Int, (dedupFirstAux seen l).Nodup := by
  induction l with
  | nil => intro seen; simp [dedupFirstAux]
  | cons x r ih =>
    intro seen
    by_cases hx : x ∈ seen
    · simpa [dedupFirstAux, hx] using ih seen
    · rw [show dedupFirstAux seen (x :: r) =
          x :: dedupFirstAux (x :: seen) r from by simp [dedupFirstAux, hx]]
      refine List.Nodup.cons ?_ (ih (x :: seen))
      intro hmem
      exact ((mem_dedupFirstAux r (x :: seen) x).mp hmem).2 (by simp)

/-- Helper: a cube's distinct-year list contains exactly its years. -/

theorem mem_yearsOf (c : Cube) (y : Int) :
    y ∈ yearsOf c ↔ y ∈ yearCoordPoints c := by
  unfold yearsOf yearCoordPoints
  rw [mem_dedupFirstAux]
  simp

/-- Helper: a cube's distinct-year list has no duplicates. -/

theorem nodup_yearsOf (c : Cube) : (yearsOf c).Nodup :=
  nodup_dedupFirstAux _ []

/-- Helper: every point of a year slice carries that year. -/

theorem sliceOf_year (c : Cube) (y : Int) :
    ∀ p ∈ sliceOf c y, p.year = y := by
  intro p hp
  have := List.of_mem_filter hp
  simpa using this

/-- Helper: points of a slice are points of the cube. -/

theorem sliceOf_subset (c : Cube) (y : Int) :
    ∀ p ∈ sliceOf c y, p ∈ c.points :=
  fun p hp => List.mem_of_mem_filter hp

/-- Helper: a year slice is nonempty exactly for the cube's years. -/

theorem sliceOf_ne_nil (c : Cube) (y : Int) :
    sliceOf c y ≠ [] ↔ y ∈ yearCoordPoints c := by
  unfold sliceOf yearCoordPoints
  constructor
  · intro hne
    match he : c.points.filter (fun p => decide (p.year = y)) with
    | [] => exact absurd he hne
    | p :: r =>
      have hp : p ∈ c.points.filter (fun p => decide (p.year = y)) := by
        rw [he]; simp
      have h1 := List.mem_of_mem_filter hp
      have h2 : p.year = y := by simpa using List.of_mem_filter hp
      exact h2 ▸ List.mem_map_of_mem _ h1
  · intro hy he
    obtain ⟨p, hp, hpy⟩ := List.mem_map.mp hy
    have : p ∈ c.points.filter (fun p => decide (p.year = y)) :=
      List.mem_filter.mpr ⟨hp, by simp [hpy]⟩
    rw [he] at this
    simp at this

/-- Helper: lookup after an assignment, same key. -/

theorem alookup_aset_self {α : Type} (l : List (String × α)) (k : String)
    (v : α) : alookup (aset l k v) k = some v := by
  induction l with
  | nil => simp [aset, alookup]
  | cons kv rest ih =>
    obtain ⟨k', w⟩ := kv
    by_cases hk : k' = k
    · simp [aset, hk, alookup]
    · simp [aset, hk, alookup, ih]

/-- Helper: lookup after an assignment, different key. -/

theorem alookup_aset_ne {α : Type} (l : List (String × α)) (k k' : String)
    (v : α) (h : k' ≠ k) : alookup (aset l k v) k' = alookup l k' := by
  induction l with
  | nil => simp [aset, alookup, Ne.symm h]
  | cons kv rest ih =>
    obtain ⟨k0, w⟩ := kv
    by_cases hk : k0 = k
    · subst hk
      simp [aset, alookup, Ne.symm h]
    · simp only [aset, if_neg hk, alookup]
      by_cases hkk : k0 = k'
      · simp [hkk]
      · simp [hkk, ih]

/-- Helper: lookup in a list keyed by its own elements. -/

theorem alookup_map_self (l : List Int) (f : Int → Cube) (y : Int) :
    alookup (l.map (fun z => (z, f z))) y =
      if y ∈ l then some (f y) else none := by
  induction l with
  | nil => simp [alookup]
  | cons x r ih =>
    simp only [List.map_cons, alookup]
    by_cases hx : x = y
    · subst hx
      simp
    · simp [hx, ih, Ne.symm hx]

/-- Helper: what the year-keyed partition holds at each key. -/

theorem getCubeDict_lookup (c : Cube) (y : Int) :
    alookup (_get_cube_dict c) y =
      if y ∈ yearsOf c then some { c with points := sliceOf c y }
      else none := by
  unfold _get_cube_dict
  exact alookup_map_self (yearsOf c) _ y

/-- Helper: filtering commutes with mapping. -/

theorem filter_map_comm {α β : Type} (l : List α) (f : α → β)
    (p : β → Bool) :
    (l.map f).filter p = (l.filter (fun a => p (f a))).map f := by
  induction l with
  | nil => rfl
  | cons a r ih =>
    by_cases h : p (f a) <;> simp [h, ih]

/-- Helper: explicit form of `dict.update` on the two year partitions. -/

theorem updateDict_char (old_cube new_cube : Cube) :
    updateDict (_get_cube_dict old_cube) (_get_cube_dict new_cube) =
      (yearsOf old_cube).map (fun y =>
        (y, if y ∈ yearsOf new_cube
            then { new_cube with points := sliceOf new_cube y }
            else { old_cube with points := sliceOf old_cube y })) ++
      ((yearsOf new_cube).filter
        (fun y => decide (y ∉ yearsOf old_cube))).map
        (fun y => (y, { new_cube with points := sliceOf new_cube y })) := by
  unfold updateDict
  congr 1
  · unfold _get_cube_dict
    rw [List.map_map]
    apply List.map_congr_left
    intro y _
    simp only [Function.comp]
    rw [alookup_map_self]
    by_cases h : y ∈ yearsOf new_cube <;> simp [h]
  · unfold _get_cube_dict
    rw [filter_map_comm]
    congr 1
    apply List.filter_congr
    intro y _
    rw [alookup_map_self]
    by_cases h : y ∈ yearsOf old_cube <;> simp [h]

/-- Helper: membership in the merged year-key list. -/

theorem mem_mergedYears (old_cube new_cube : Cube) (y : Int) :
    y ∈ mergedYears old_cube new_cube ↔
      y ∈ yearsOf old_cube ∨ y ∈ yearsOf new_cube := by
  unfold mergedYears
  simp only [List.mem_append, List.mem_filter, decide_eq_true_eq]
  constructor
  · rintro (h | ⟨h, _⟩)
    · exact Or.inl h
    · exact Or.inr h
  · rintro (h | h)
    · exact Or.inl h
    · by_cases ho : y ∈ yearsOf old_cube
      · exact Or.inl ho
      · exact Or.inr ⟨h, by simpa using ho⟩

/-- Helper: the merged year-key list has no duplicates. -/

theorem mergedYears_nodup (old_cube new_cube : Cube) :
    (mergedYears old_cube new_cube).Nodup := by
  unfold mergedYears
  refine List.Nodup.append (nodup_yearsOf _)
    ((nodup_yearsOf _).filter _) ?_
  intro y hy hyf
  have := (List.mem_filter.mp hyf).2
  simp only [decide_eq_true_eq] at this
  exact this hy

/-- Helper: the slice list the engine concatenates is the merged slice
of every merged year key, all carrying one unified attribute
dictionary. -/

theorem merged_cs_eq (old_cube new_cube : Cube) :
    ∃ A, _fix_cube_metadata
      ((updateDict (_get_cube_dict old_cube)
        (_get_cube_dict new_cube)).map (·.2)) =
      (mergedYears old_cube new_cube).map
        (mergedSliceCube old_cube new_cube A) := by
  refine ⟨fix_cube_attributes
    ((updateDict (_get_cube_dict old_cube)
      (_get_cube_dict new_cube)).map (·.2)), ?_⟩
  unfold _fix_cube_metadata
  rw [updateDict_char old_cube new_cube]
  simp only [List.map_append, List.map_map, mergedYears]
  congr 1
  · apply List.map_congr_left
    intro y _
    simp only [Function.comp, mergedSliceCube]
    by_cases h : y ∈ yearsOf new_cube <;> simp [h]
  · apply List.map_congr_left
    intro y hy
    have hyn : y ∈ yearsOf new_cube := (List.mem_filter.mp hy).1
    simp only [Function.comp, mergedSliceCube, if_pos hyn]

/-- Helper: `cubeYearDisjoint` is symmetric. -/

theorem cubeYearDisjoint_symm : Symmetric cubeYearDisjoint :=
  fun _ _ h q hq p hp => (h p hp q hq).symm

/-- Helper: year-keyed slices with distinct keys are pairwise
year-disjoint. -/

theorem pairwise_mergedSlices (old_cube new_cube : Cube)
    (A : List (String × AttrVal)) :
    ((mergedYears old_cube new_cube).map
      (mergedSliceCube old_cube new_cube A)).Pairwise cubeYearDisjoint := by
  rw [List.pairwise_map]
  refine List.Pairwise.imp ?_ (mergedYears_nodup old_cube new_cube)
  intro y1 y2 hne p hp q hq
  have h1 : p.year = y1 := by
    unfold mergedSliceCube at hp
    by_cases h : y1 ∈ yearsOf new_cube
    · rw [if_pos h] at hp
      exact sliceOf_year _ _ p hp
    · rw [if_neg h] at hp
      exact sliceOf_year _ _ p hp
  have h2 : q.year = y2 := by
    unfold mergedSliceCube at hq
    by_cases h : y2 ∈ yearsOf new_cube
    · rw [if_pos h] at hq
      exact sliceOf_year _ _ q hq
    · rw [if_neg h] at hq
      exact sliceOf_year _ _ q hq
  rw [h1, h2]
  exact hne

/-- Helper: filtering a year out of slices that all avoid it. -/

theorem filter_flatten_none (ls : List Cube) (y : Int)
    (h : ∀ c ∈ ls, ∀ p ∈ c.points, p.year ≠ y) :
    ((ls.map (·.points)).flatten).filter
      (fun p => decide (p.year = y)) = [] := by
  induction ls with
  | nil => rfl
  | cons c r ih =>
    simp only [List.map_cons, List.flatten_cons, List.filter_append]
    rw [ih (fun d hd => h d (by simp [hd]))]
    have hnil : List.filter (fun p => decide (p.year = y)) c.points = [] :=
      List.filter_eq_nil_iff.mpr
        (fun p hp => by simpa using h c (by simp) p hp)
    rw [hnil]
    rfl

/-- Helper: filtering a year out of a slice list that is pairwise
year-disjoint returns exactly the slice of that year. -/

theorem filter_flatten_of_pairwise (ls : List Cube) (y : Int) (c : Cube)
    (hpair : ls.Pairwise cubeYearDisjoint) (hc : c ∈ ls)
    (hcy : ∀ p ∈ c.points, p.year = y) (hne : c.points ≠ []) :
    ((ls.map (·.points)).flatten).filter
      (fun p => decide (p.year = y)) = c.points := by
  obtain ⟨s, t, rfl⟩ := List.append_of_mem hc
  obtain ⟨q0, hq0⟩ := List.exists_mem_of_ne_nil _ hne
  rw [List.pairwise_append] at hpair
  obtain ⟨hps, hpct, hcross⟩ := hpair
  have hct := List.pairwise_cons.mp hpct
  simp only [List.map_append, List.map_cons, List.flatten_append,
    List.flatten_cons, List.filter_append]
  rw [filter_flatten_none s y]
  · rw [filter_flatten_none t y]
    · rw [List.filter_eq_self.mpr]
      · simp
      · intro p hp
        simp [hcy p hp]
    · intro d hd p hp
      have := hct.1 d hd q0 hq0 p hp
      rw [hcy q0 hq0] at this
      exact fun hpy => this hpy.symm
  · intro d hd p hp
    have := hcross d hd c (by simp) p hp q0 hq0
    rw [hcy q0 hq0] at this
    exact this

/-- Helper: a successful external concatenation returns the sub-cubes'
points joined in time order. -/

theorem concatenate_cube_ok (cs : List Cube) (fc : Cube)
    (h : concatenate_cube cs = .ok fc) :
    fc.points =
      ((List.insertionSort (fun a b : Cube => headTime a ≤ headTime b)
        cs).map (·.points)).flatten := by
  cases cs with
  | nil => simp [concatenate_cube] at h
  | cons c0 rest =>
    simp only [concatenate_cube] at h
    split at h
    · split at h
      · simp only [Except.ok.injEq] at h
        rw [← h]
      · simp at h
    · simp at h

/-- Helper: the merged slice's points for a year. -/

theorem mergedSliceCube_points (old_cube new_cube : Cube)
    (A : List (String × AttrVal)) (y : Int) :
    (mergedSliceCube old_cube new_cube A y).points =
      if y ∈ yearsOf new_cube then sliceOf new_cube y
      else sliceOf old_cube y := by
  unfold mergedSliceCube
  by_cases h : y ∈ yearsOf new_cube <;> simp [h]

/-- Helper: every point of a merged slice carries its key year. -/

theorem mergedSliceCube_year (old_cube new_cube : Cube)
    (A : List (String × AttrVal)) (y : Int) :
    ∀ p ∈ (mergedSliceCube old_cube new_cube A y).points, p.year = y := by
  intro p hp
  rw [mergedSliceCube_points] at hp
  by_cases h : y ∈ yearsOf new_cube
  · rw [if_pos h] at hp
    exact sliceOf_year _ _ p hp
  · rw [if_neg h] at hp
    exact sliceOf_year _ _ p hp

/-- Helper: a merged slice at a merged year key is nonempty. -/

theorem mergedSliceCube_ne_nil (old_cube new_cube : Cube)
    (A : List (String × AttrVal)) (y : Int)
    (hy : y ∈ mergedYears old_cube new_cube) :
    (mergedSliceCube old_cube new_cube A y).points ≠ [] := by
  rw [mergedSliceCube_points]
  by_cases h : y ∈ yearsOf new_cube
  · rw [if_pos h]
    exact (sliceOf_ne_nil _ _).mpr ((mem_yearsOf _ _).mp h)
  · rw [if_neg h]
    rcases (mem_mergedYears _ _ _).mp hy with ho | hn
    · exact (sliceOf_ne_nil _ _).mpr ((mem_yearsOf _ _).mp ho)
    · exact absurd hn h

/-- Helper: shape of a successful `_concatenate_along_time`. -/

theorem concatenate_along_time_ok (old_cube new_cube m : Cube)
    (h : _concatenate_along_time old_cube new_cube = .ok m) :
    ∃ fc, concatenate_cube (_fix_cube_metadata
        ((updateDict (_get_cube_dict old_cube)
          (_get_cube_dict new_cube)).map (·.2))) = .ok fc ∧
      m = { fc with attrs := finalAttrs fc } := by
  simp only [_concatenate_along_time] at h
  cases hcc : concatenate_cube (_fix_cube_metadata
      ((updateDict (_get_cube_dict old_cube)
        (_get_cube_dict new_cube)).map (·.2))) with
  | error e => rw [hcc] at h; simp at h
  | ok fc =>
    rw [hcc] at h
    simp only [Except.ok.injEq] at h
    exact ⟨fc, rfl, h.symm⟩

/-- C1: whenever the year-keyed partition and recombination succeed, the
merged cube's years are exactly the union of the two year sets; every
year of the new cube takes its slice from the new data (overwrite
semantics) and every other year keeps the old data; and the merged
cube's `start_year` / `end_year` attributes are the first and last year
of its merged time coordinate.  In particular merging an existing file
covering 2000-2005 with new data covering 2005-2010 yields one output
spanning 2000-2010 with the year 2005 taken from the new dataset. -/

theorem concatenation_merge :
    (∀ (old_cube new_cube m : Cube),
      _concatenate_along_time old_cube new_cube = .ok m →
      (∀ y : Int, y ∈ yearCoordPoints m ↔
        (y ∈ yearCoordPoints old_cube ∨ y ∈ yearCoordPoints new_cube)) ∧
      (∀ y : Int, y ∈ yearCoordPoints new_cube →
        sliceOf m y = sliceOf new_cube y) ∧
      (∀ y : Int, y ∉ yearCoordPoints new_cube →
        sliceOf m y = sliceOf old_cube y) ∧
      alookup m.attrs "start_year" =
        some (.int ((yearCoordPoints m).headD 0)) ∧
      alookup m.attrs "end_year" =
        some (.int ((yearCoordPoints m).getLastD 0))) ∧
    _concatenate_along_time oldCubeEx newCubeEx = .ok mergedCubeEx := by
  constructor
  · intro old_cube new_cube m hok
    obtain ⟨fc, hcc, hm⟩ := concatenate_along_time_ok _ _ _ hok
    obtain ⟨A, hcs⟩ := merged_cs_eq old_cube new_cube
    rw [hcs] at hcc
    have hperm := List.perm_insertionSort
      (fun a b : Cube => headTime a ≤ headTime b)
      ((mergedYears old_cube new_cube).map
        (mergedSliceCube old_cube new_cube A))
    have hpairS := (hperm.pairwise_iff
        (fun hxy => cubeYearDisjoint_symm hxy)).mpr
      (pairwise_mergedSlices old_cube new_cube A)
    have hfc := concatenate_cube_ok _ _ hcc
    have hmp : m.points = fc.points := by rw [hm]
    have hfilter : ∀ y : Int, y ∈ mergedYears old_cube new_cube →
        sliceOf m y = (mergedSliceCube old_cube new_cube A y).points := by
      intro y hy
      have hc : mergedSliceCube old_cube new_cube A y ∈
          List.insertionSort (fun a b : Cube => headTime a ≤ headTime b)
            ((mergedYears old_cube new_cube).map
              (mergedSliceCube old_cube new_cube A)) :=
        hperm.mem_iff.mpr (List.mem_map_of_mem _ hy)
      have hres := filter_flatten_of_pairwise _ y _ hpairS hc
        (mergedSliceCube_year _ _ _ _)
        (mergedSliceCube_ne_nil _ _ _ _ hy)
      unfold sliceOf
      rw [hmp, hfc]
      exact hres
    have hfilter_none : ∀ y : Int,
        y ∉ mergedYears old_cube new_cube → sliceOf m y = [] := by
      intro y hy
      unfold sliceOf
      rw [hmp, hfc]
      apply filter_flatten_none
      intro c hcmem p hp hpy
      have hcK := hperm.mem_iff.mp hcmem
      obtain ⟨y', hy', hgc⟩ := List.mem_map.mp hcK
      have hpy' : p.year = y' := by
        rw [← hgc] at hp
        exact mergedSliceCube_year old_cube new_cube A y' p hp
      have hyy : y = y' := by rw [← hpy, hpy']
      exact hy (hyy ▸ hy')
    have h2 : ∀ y : Int, y ∈ yearCoordPoints new_cube →
        sliceOf m y = sliceOf new_cube y := by
      intro y hy
      have hyn := (mem_yearsOf new_cube y).mpr hy
      have hyK := (mem_mergedYears old_cube new_cube y).mpr (Or.inr hyn)
      rw [hfilter y hyK, mergedSliceCube_points, if_pos hyn]
    have h3 : ∀ y : Int, y ∉ yearCoordPoints new_cube →
        sliceOf m y = sliceOf old_cube y := by
      intro y hy
      have hyn : y ∉ yearsOf new_cube :=
        fun h => hy ((mem_yearsOf new_cube y).mp h)
      by_cases ho : y ∈ yearsOf old_cube
      · have hyK := (mem_mergedYears old_cube new_cube y).mpr (Or.inl ho)
        rw [hfilter y hyK, mergedSliceCube_points, if_neg hyn]
      · have hyK : y ∉ mergedYears old_cube new_cube := by
          intro h
          rcases (mem_mergedYears old_cube new_cube y).mp h with h' | h'
          · exact ho h'
          · exact hyn h'
        rw [hfilter_none y hyK]
        have hnil : sliceOf old_cube y = [] := by
          by_contra hne
          exact ho ((mem_yearsOf old_cube y).mpr
            ((sliceOf_ne_nil old_cube y).mp hne))
        rw [hnil]
    refine ⟨?_, h2, h3, ?_, ?_⟩
    · intro y
      by_cases hn : y ∈ yearCoordPoints new_cube
      · rw [← sliceOf_ne_nil m y, h2 y hn, sliceOf_ne_nil new_cube y]
        simp [hn]
      · rw [← sliceOf_ne_nil m y, h3 y hn, sliceOf_ne_nil old_cube y]
        simp [hn]
    · rw [hm]
      show alookup (finalAttrs fc) "start_year" =
        some (AttrVal.int ((yearCoordPoints fc).headD 0))
      unfold finalAttrs
      rw [alookup_aset_ne _ _ _ _ (by decide), alookup_aset_self]
    · rw [hm]
      show alookup (finalAttrs fc) "end_year" =
        some (AttrVal.int ((yearCoordPoints fc).getLastD 0))
      unfold finalAttrs
      rw [alookup_aset_self]
  · decide

/-- Witness for `concatenation_merge`: the general clause evaluated at
the concrete 2000-2005 / 2005-2010 merge. -/

theorem concatenation_merge_witness :
    (∀ y : Int, y ∈ yearCoordPoints mergedCubeEx ↔
      (y ∈ yearCoordPoints oldCubeEx ∨ y ∈ yearCoordPoints newCubeEx)) ∧
    sliceOf mergedCubeEx 2005 = sliceOf newCubeEx 2005 :=
  have h := concatenation_merge.1 oldCubeEx newCubeEx mergedCubeEx
    concatenation_merge.2
  ⟨h.1, h.2.1 2005 (by decide)⟩

/-- C2: with an existing target file, a batch of more than one dataset is
never merged: each dataset is written (unmerged, as the batch) under the
timestamped FAILED-tagged filename, with the conservative multi-element
message; and an exception during partition/recombination triggers the
same fallback write with a message naming the causing exception.  In
both cases `_concatenate_output` returns normally — its type is a plain
state/log pair, so no exception escapes the engine. -/

theorem concatenation_output_fallback :
    (∀ (c : Cube) (rest : List Cube) (filename now : String)
       (st : FsState),
      rest ≠ [] → isfile st filename = true →
      _concatenate_output (c :: rest) filename now st =
        (writeFile st
          (_create_new_filename filename
            (mkYears (alookup c.attrs "start_year")
              (alookup c.attrs "end_year")) now)
          (.cubes (c :: rest)),
         ["Saving cubes in concatenation mode is not possible for " ++
          "CubeLists with more than one element, got " ++
          toString (c :: rest).length,
          "Saving cubes to " ++
          _create_new_filename filename
            (mkYears (alookup c.attrs "start_year")
              (alookup c.attrs "end_year")) now])) ∧
    (∀ (c old : Cube) (filename now exc : String) (st : FsState),
      getFile st filename = some (.cubes [old]) →
      _concatenate_along_time old c = .error exc →
      _concatenate_output [c] filename now st =
        (writeFile st
          (_create_new_filename filename
            (mkYears (alookup c.attrs "start_year")
              (alookup c.attrs "end_year")) now)
          (.cubes [c]),
         ["Could not concatenate old and new cube along time: " ++ exc,
          "Saving cubes to " ++
          _create_new_filename filename
            (mkYears (alookup c.attrs "start_year")
              (alookup c.attrs "end_year")) now])) := by
  constructor
  · intro c rest filename now st hrest hfile
    simp [_concatenate_output, hfile, hrest, _save_new_cube_individually]
  · intro c old filename now exc st hget herr
    have hfile : isfile st filename = true := by
      unfold isfile
      rw [hget]
      rfl
    simp [_concatenate_output, hfile, loadCubes, hget, herr,
      _save_new_cube_individually]

/-- Witness for `concatenation_output_fallback`: a two-element batch
against an existing file, and a single-element batch whose merge with
the existing year-2000 data fails on a duplicated time coordinate. -/

theorem concatenation_output_fallback_witness :
    (_concatenate_output
      [{ points := [⟨0, 2000, 1⟩], attrs := [] },
       { points := [⟨1, 2001, 1⟩], attrs := [] }] "d/t.nc" "20200101" 
      ⟨[("d/t.nc", .corrupt)], ["d"]⟩ =
      (writeFile ⟨[("d/t.nc", .corrupt)], ["d"]⟩
        (_create_new_filename "d/t.nc" (mkYears none none) "20200101")
        (.cubes [{ points := [⟨0, 2000, 1⟩], attrs := [] },
                 { points := [⟨1, 2001, 1⟩], attrs := [] }]),
       ["Saving cubes in concatenation mode is not possible for " ++
        "CubeLists with more than one element, got " ++ toString 2,
        "Saving cubes to " ++
        _create_new_filename "d/t.nc" (mkYears none none) "20200101"])) ∧
    (_concatenate_output [{ points := [⟨5, 2001, 2⟩], attrs := [] }]
      "d/t.nc" "20200101"
      ⟨[("d/t.nc", .cubes [{ points := [⟨5, 2000, 1⟩], attrs := [] }])],
       ["d"]⟩ =
      (writeFile
        ⟨[("d/t.nc", .cubes [{ points := [⟨5, 2000, 1⟩], attrs := [] }])],
         ["d"]⟩
        (_create_new_filename "d/t.nc" (mkYears none none) "20200101")
        (.cubes [{ points := [⟨5, 2001, 2⟩], attrs := [] }]),
       ["Could not concatenate old and new cube along time: " ++
        "failed to concatenate into a single cube",
        "Saving cubes to " ++
        _create_new_filename "d/t.nc" (mkYears none none) "20200101"])) := by
  constructor
  · have h := concatenation_output_fallback.1
      { points := [⟨0, 2000, 1⟩], attrs := [] }
      [{ points := [⟨1, 2001, 1⟩], attrs := [] }] "d/t.nc" "20200101"
      ⟨[("d/t.nc", .corrupt)], ["d"]⟩ (by decide) (by decide)
    exact h
  · have h := concatenation_output_fallback.2
      { points := [⟨5, 2001, 2⟩], attrs := [] }
      { points := [⟨5, 2000, 1⟩], attrs := [] } "d/t.nc" "20200101"
      "failed to concatenate into a single cube"
      ⟨[("d/t.nc", .cubes [{ points := [⟨5, 2000, 1⟩], attrs := [] }])],
       ["d"]⟩ (by decide) (by decide)
    exact h

/-- C10 counterexample: `save` in concatenation mode with an empty batch
still raises when a chunking scheme is requested — `optimize_access`
evaluates `cubes[0]` before the concatenation branch is reached, so the
claim's "no exception is raised" fails for an empty batch with
`optimize_access='map'`. -/

theorem save_empty_concat_counterexample :
    save [] "d/x.nc" "map" true false "t" ⟨[], ["d"]⟩ =
      .error .indexError := by
  decide

/-- C10 (amended): in concatenation mode with an empty dataset batch,
provided no `optimize_access` chunking is requested (its default) and
the target's directory component is nonempty or already exists, `save`
creates, renames and modifies no file, logs a warning, raises nothing,
and still returns the target filename. -/

theorem save_empty_concat (filename now : String) (force : Bool)
    (st : FsState)
    (h : pyDirname filename ∈ st.dirs ∨ pyDirname filename ≠ "") :
    ∃ st' : FsState,
      save [] filename "" true force now st =
        .ok (st', ["Cannot save " ++ filename ++ ", got empty CubeList"],
          filename) ∧
      st'.files = st.files := by
  by_cases hd : pyDirname filename ∈ st.dirs
  · refine ⟨st, ?_, rfl⟩
    simp [save, hd, _concatenate_output, bind, Except.bind, pure,
      Except.pure]
  · have hne : pyDirname filename ≠ "" := by
      rcases h with h | h
      · exact absurd h hd
      · exact h
    refine ⟨{ st with dirs := pyDirname filename :: st.dirs }, ?_, rfl⟩
    simp [save, hd, makedirs, hne, _concatenate_output, bind, Except.bind,
      pure, Except.pure]

/-- Witness for `save_empty_concat` at a concrete state. -/

theorem save_empty_concat_witness :
    ∃ st' : FsState,
      save [] "d/x.nc" "" true false "t" ⟨[], ["d"]⟩ =
        .ok (st',
          ["Cannot save " ++ "d/x.nc" ++ ", got empty CubeList"],
          "d/x.nc") ∧
      st'.files = (⟨[], ["d"]⟩ : FsState).files :=
  save_empty_concat "d/x.nc" "t" false ⟨[], ["d"]⟩ (Or.inl (by decide))

/-! ## Theorems for the locator's descriptor frame effect -/

/-- C8 counterexample: a CMIP5 descriptor with frequency `fx` and
ensemble `r1i1p1` comes back from `get_input_filelist` with its
`ensemble` value overwritten in place by the fixed placeholder
`r0i0p0`, so the descriptor is not read-only within the call. -/

theorem locator_descriptor_mutation_counterexample :
    get_input_filelist
      [("project", Value.str "CMIP5"), ("frequency", Value.str "fx"),
       ("ensemble", Value.str "r1i1p1")]
      [("default", [""])] []
      (fun _ => some ⟨DrsVal.single "", DrsVal.single "tas*"⟩)
      falseFs noFs =
      .ok ([],
        [("project", Value.str "CMIP5"), ("frequency", Value.str "fx"),
         ("ensemble", Value.str "r0i0p0")]) ∧
    lookupVar
      [("project", Value.str "CMIP5"), ("frequency", Value.str "fx"),
       ("ensemble", Value.str "r1i1p1")] "ensemble" =
      some (Value.str "r1i1p1") := by
  constructor
  · rfl
  · decide

/-- C8 (amended): the descriptor is read-only within
`get_input_filelist` except in exactly one case: a CMIP5 project with
frequency `fx` has its `ensemble` key overwritten with the fixed
placeholder `r0i0p0`; for every other successful call the descriptor
maps the same keys to the same values afterwards. -/

theorem locator_descriptor_frame :
    (∀ (var : Variable) (rootpath : List (String × List String))
       (drs : List (String × String)) (cfg : ProjectConfig) (fs : DirFs)
       (cfs : ContentFs) (r : List String × Variable),
      get_input_filelist var rootpath drs cfg fs cfs = .ok r →
      lookupVar var "project" ≠ some (Value.str "CMIP5") → r.2 = var) ∧
    (∀ (var : Variable) (rootpath : List (String × List String))
       (drs : List (String × String)) (cfg : ProjectConfig) (fs : DirFs)
       (cfs : ContentFs) (r : List String × Variable) (fq : Value),
      get_input_filelist var rootpath drs cfg fs cfs = .ok r →
      lookupVar var "project" = some (Value.str "CMIP5") →
      lookupVar var "frequency" = some fq → fq ≠ Value.str "fx" →
      r.2 = var) ∧
    (∀ (var : Variable) (rootpath : List (String × List String))
       (drs : List (String × String)) (cfg : ProjectConfig) (fs : DirFs)
       (cfs : ContentFs) (r : List String × Variable),
      get_input_filelist var rootpath drs cfg fs cfs = .ok r →
      lookupVar var "project" = some (Value.str "CMIP5") →
      lookupVar var "frequency" = some (Value.str "fx") →
      r.2 = setVar var "ensemble" (Value.str "r0i0p0")) := by
  refine ⟨?_, ?_, ?_⟩
  · intro var rootpath drs cfg fs cfs r hok hproj
    unfold get_input_filelist at hok
    cases hp : lookupVar var "project" with
    | none => simp [getVar, hp, bind, Except.bind] at hok
    | some prj =>
      have hne : ¬ prj = Value.str "CMIP5" :=
        fun he => hproj (by rw [hp, he])
      simp only [getVar, hp, bind, Except.bind, if_neg hne, pure,
        Except.pure] at hok
      cases htail : _time_gated_files var rootpath drs cfg fs cfs with
      | error e => rw [htail] at hok; simp at hok
      | ok fl =>
        rw [htail] at hok
        simp only [Except.ok.injEq] at hok
        rw [← hok]
  · intro var rootpath drs cfg fs cfs r fq hok hproj hfreq hfq
    unfold get_input_filelist at hok
    have hne : ¬ fq = Value.str "fx" := hfq
    simp only [getVar, hproj, hfreq, bind, Except.bind, if_pos rfl,
      if_neg hne, pure, Except.pure, if_true] at hok
    cases htail : _time_gated_files var rootpath drs cfg fs cfs with
    | error e => rw [htail] at hok; simp at hok
    | ok fl =>
      rw [htail] at hok
      simp only [Except.ok.injEq] at hok
      rw [← hok]
  · intro var rootpath drs cfg fs cfs r hok hproj hfreq
    unfold get_input_filelist at hok
    simp only [getVar, hproj, hfreq, bind, Except.bind, if_pos rfl, pure,
      Except.pure, if_true] at hok
    cases htail : _time_gated_files (setVar var "ensemble"
        (Value.str "r0i0p0")) rootpath drs cfg fs cfs with
    | error e => rw [htail] at hok; simp at hok
    | ok fl =>
      rw [htail] at hok
      simp only [Except.ok.injEq] at hok
      rw [← hok]

/-- Witness for `locator_descriptor_frame`: a non-CMIP5 descriptor comes
back unchanged. -/

theorem locator_descriptor_frame_witness :
    (([] : List String),
      [("project", Value.str "OBS"), ("frequency", Value.str "mon"),
       ("start_year", Value.int 2000),
       ("end_year", Value.int 2001)]).2 =
      [("project", Value.str "OBS"), ("frequency", Value.str "mon"),
       ("start_year", Value.int 2000), ("end_year", Value.int 2001)] :=
  locator_descriptor_frame.1
    [("project", Value.str "OBS"), ("frequency", Value.str "mon"),
     ("start_year", Value.int 2000), ("end_year", Value.int 2001)]
    [("default", [""])] []
    (fun _ => some ⟨DrsVal.single "", DrsVal.single "tas*"⟩)
    falseFs noFs
    ([],
     [("project", Value.str "OBS"), ("frequency", Value.str "mon"),
      ("start_year", Value.int 2000), ("end_year", Value.int 2001)])
    (by rfl) (by decide)

/-- C9 counterexample: one successful CMIP6 citation suffices to place a
different entry after the fixed tool citation, so the tool citation is
the first, not the last, entry of the written bibliography. -/

theorem citation_terminal_entry_counterexample :
    _save_citation_info "p" [] ["u"] [] false (fun _ => "ENTRY")
      (fun _ => "") =
      [("p_citation.bibtex", ESMVALTOOL_PAPER ++ "\n" ++ "ENTRY")] ∧
    (citation_entries [] ["u"] false (fun _ => "ENTRY")
      (fun _ => "")).getLast? = some "ENTRY" ∧
    "ENTRY" ≠ ESMVALTOOL_PAPER := by
  refine ⟨rfl, rfl, by decide⟩

/-- C9 (amended): for every invocation of the citation writer, the
bibliography file it produces is the ordered entry sequence led by the
fixed tool-citation entry — the fixed entry is the first entry, and the
bibliography file is always the last file written. -/

theorem citation_first_entry (product_name : String)
    (product_tags json_urls info_urls : List String) (refPathSet : Bool)
    (collectCmip collectBib : String → String) :
    (citation_entries product_tags json_urls refPathSet collectCmip
      collectBib).head? = some ESMVALTOOL_PAPER ∧
    (_save_citation_info product_name product_tags json_urls info_urls
      refPathSet collectCmip collectBib).getLast? =
      some (product_name ++ "_citation.bibtex",
        String.mk (joinSep "\n".data
          ((citation_entries product_tags json_urls refPathSet
            collectCmip collectBib).map (fun s : String => s.data)))) := by
  constructor
  · rfl
  · unfold _save_citation_info
    by_cases h : info_urls ≠ [] <;> simp [h, List.getLast?_concat]
